import Mathlib

/-!
ScalableWrapper.

A shallow embedding of `src/src/ScalableWrapper.cpp`: a graphics view that hosts a text
editor inside a scene, zooms it with Ctrl + wheel, and proxies the editor's scrollbars
through its own.

Conventions of the embedding.

* `qreal` is `double`. A `qreal` value is modelled by the rational number it denotes, and
  every arithmetic operation of the source on `qreal` values is the exact operation
  followed by `roundToDouble`, the rounding of IEEE 754 binary64 arithmetic (to nearest,
  ties to even, with gradual underflow), every intermediate result being a binary64
  value. Comparisons and the conversion of an `int` to `qreal` are exact. Overflow to
  infinity is outside the model: with 32-bit deltas and a zoom factor of at least 1/2
  every value computed stays far below `2 ^ 1024`.
* C++ `int` values are `Int`; signed overflow is undefined in C++ and lies outside the
  model (widget sizes are bounded by the toolkit far below the `int` range).
* The toolkit objects the class drives (scrollbars, signal connections, events) are not
  part of the repository; the parts of their behaviour the code relies on are modelled
  explicitly and are marked as such.
* A slot call made through a signal connection is a nested call; the nesting depth is
  bounded by a fuel argument, and the functions return `none` when the fuel runs out.
  `QAbstractSlider.setValue_total` shows that fuel `4` is always enough.
-/

/-! ## Toolkit model: scrollbars -/

/-- Modelled from the spec: the toolkit's `QScrollBar` (not under `src/`), reduced to the
properties the wrapper reads or writes: the range, the value, the single step and the
on-screen size of the bar. -/
structure QScrollBar where
  minimum : Int
  maximum : Int
  value : Int
  singleStep : Int
  width : Int
  height : Int
deriving DecidableEq, Repr

/-- Modelled from the spec: the toolkit's clamping of a requested value to the range of the
bar, `qMax(minimum, qMin(maximum, val))`. -/
def QScrollBar.bound (b : QScrollBar) (val : Int) : Int :=
  max b.minimum (min b.maximum val)

/-- A bar whose value lies inside its range, as the toolkit maintains it. -/
def QScrollBar.WellFormed (b : QScrollBar) : Prop :=
  b.minimum ≤ b.value ∧ b.value ≤ b.maximum

instance (b : QScrollBar) : Decidable b.WellFormed := by
  unfold QScrollBar.WellFormed; infer_instance

/-- The four scrollbars the wrapper touches: its own two (`verticalScrollBar()`,
`horizontalScrollBar()`) and the editor's two (`m_editor->verticalScrollBar()`,
`m_editor->horizontalScrollBar()`). -/
inductive Bar where
  | wrapperVertical
  | wrapperHorizontal
  | editorVertical
  | editorHorizontal
deriving DecidableEq, Repr

/-- The bar on the other side of the wrapper/editor pairing, on the same axis. -/
def Bar.partner : Bar → Bar
  | .wrapperVertical => .editorVertical
  | .wrapperHorizontal => .editorHorizontal
  | .editorVertical => .wrapperVertical
  | .editorHorizontal => .wrapperHorizontal

/-- The four `valueChanged(int)` to `setValue(int)` connections that
`setupScrollingSynchronization` makes and removes, in the order of the source. -/
inductive Link where
  | wrapperVerticalToEditor
  | wrapperHorizontalToEditor
  | editorVerticalToWrapper
  | editorHorizontalToWrapper
deriving DecidableEq, Repr

/-- The bar whose `valueChanged(int)` signal the connection listens to. -/
def Link.sender : Link → Bar
  | .wrapperVerticalToEditor => .wrapperVertical
  | .wrapperHorizontalToEditor => .wrapperHorizontal
  | .editorVerticalToWrapper => .editorVertical
  | .editorHorizontalToWrapper => .editorHorizontal

/-- The bar whose `setValue(int)` slot the connection calls. -/
def Link.receiver : Link → Bar
  | .wrapperVerticalToEditor => .editorVertical
  | .wrapperHorizontalToEditor => .editorHorizontal
  | .editorVerticalToWrapper => .wrapperVertical
  | .editorHorizontalToWrapper => .wrapperHorizontal

/-! ## The state of the wrapper -/

/-- The state of a `ScalableWrapper` together with the toolkit objects it drives.
`m_zoomRange` and `m_rect` are the members of the class; `connections` is the list of
signal connections between the four bars, in connection order (duplicates allowed, as in
the toolkit); `editorProxyScale` and `editorProxySize` are the scale and size last set on
`m_editorProxy`; `menuProxyScales` records the scale given to every context-menu proxy
created so far, most recent first. -/
structure ScalableWrapper where
  m_zoomRange : ℚ
  verticalScrollBar : QScrollBar
  horizontalScrollBar : QScrollBar
  editorVerticalScrollBar : QScrollBar
  editorHorizontalScrollBar : QScrollBar
  connections : List Link
  viewportWidth : Int
  viewportHeight : Int
  editorProxyScale : ℚ
  editorProxySize : Int × Int
  m_rect : Int × Int × Int × Int
  menuProxyScales : List ℚ
deriving DecidableEq

/-- Read one of the four bars. -/
def ScalableWrapper.bar (st : ScalableWrapper) : Bar → QScrollBar
  | .wrapperVertical => st.verticalScrollBar
  | .wrapperHorizontal => st.horizontalScrollBar
  | .editorVertical => st.editorVerticalScrollBar
  | .editorHorizontal => st.editorHorizontalScrollBar

/-- Replace one of the four bars. -/
def ScalableWrapper.setBar (st : ScalableWrapper) (x : Bar) (b : QScrollBar) :
    ScalableWrapper :=
  match x with
  | .wrapperVertical => { st with verticalScrollBar := b }
  | .wrapperHorizontal => { st with horizontalScrollBar := b }
  | .editorVertical => { st with editorVerticalScrollBar := b }
  | .editorHorizontal => { st with editorHorizontalScrollBar := b }

/-- Overwrite the value field of one bar, nothing else. -/
def ScalableWrapper.setValueOf (st : ScalableWrapper) (x : Bar) (v : Int) :
    ScalableWrapper :=
  st.setBar x { st.bar x with value := v }

/-- Modelled from the spec: the toolkit's `QAbstractSlider::setValue`. The requested value
is clamped to the range; when the clamped value equals the current one nothing happens;
otherwise the value is stored and `valueChanged(int)` is emitted, which calls the
`setValue(int)` slot of the receiver of every connection of this bar, in connection order,
each call being a nested `setValue`. -/
def QAbstractSlider.setValue : Nat → ScalableWrapper → Bar → Int → Option ScalableWrapper
  | 0, _, _, _ => none
  | fuel + 1, st, x, value =>
    let v := (st.bar x).bound value
    if (st.bar x).value = v then some st
    else
      (st.connections.filter (fun l => l.sender = x)).foldlM
        (fun s l => QAbstractSlider.setValue fuel s l.receiver v)
        (st.setValueOf x v)

/-- Modelled from the spec: the toolkit's `QAbstractSlider::setRange`: the minimum is
stored, the maximum is stored as `qMax(min, max)`, and when the range changed the current
value is re-bound through `setValue`. -/
def QAbstractSlider.setRange (fuel : Nat) (st : ScalableWrapper) (x : Bar) (min max : Int) :
    Option ScalableWrapper :=
  let b := st.bar x
  let st1 := st.setBar x { b with minimum := min, maximum := Max.max min max }
  if b.minimum ≠ min ∨ b.maximum ≠ Max.max min max then
    QAbstractSlider.setValue fuel st1 x b.value
  else some st1

/-- Modelled from the spec: the toolkit's `QAbstractSlider::setMaximum`, which is
`setRange(qMin(minimum, max), max)`. -/
def QAbstractSlider.setMaximum (fuel : Nat) (st : ScalableWrapper) (x : Bar) (max : Int) :
    Option ScalableWrapper :=
  QAbstractSlider.setRange fuel st x (Min.min (st.bar x).minimum max) max

/-- Modelled from the spec: the toolkit's `connect`, which appends a connection (a second
`connect` of the same pair makes a duplicate). -/
def ScalableWrapper.connect (st : ScalableWrapper) (l : Link) : ScalableWrapper :=
  { st with connections := st.connections ++ [l] }

/-- Modelled from the spec: the toolkit's `disconnect(sender, signal, receiver, slot)`,
which removes every connection of that sender/signal/receiver/slot. -/
def ScalableWrapper.disconnect (st : ScalableWrapper) (l : Link) : ScalableWrapper :=
  { st with connections := st.connections.filter (fun k => k ≠ l) }

/-- Modelled from the spec: the toolkit's `QObject::disconnect()` on a bar, which removes
every connection of every signal of that bar. -/
def ScalableWrapper.disconnectAll (st : ScalableWrapper) (x : Bar) : ScalableWrapper :=
  { st with connections := st.connections.filter (fun k => k.sender ≠ x) }

/-- The conversion of a `qreal` to `int` in an initialisation such as
`const int editorWidth = ...`: truncation toward zero. -/
def qrealToInt (q : ℚ) : Int :=
  if 0 ≤ q then ⌊q⌋ else ⌈q⌉

/-- Rounding of a rational to the nearest integer, ties to the even one. -/
def roundHalfEven (x : ℚ) : Int :=
  if x - ⌊x⌋ < 1 / 2 then ⌊x⌋
  else if 1 / 2 < x - ⌊x⌋ then ⌊x⌋ + 1
  else if ⌊x⌋ % 2 = 0 then ⌊x⌋ else ⌊x⌋ + 1

/-- The rounding of `double` arithmetic (IEEE 754 binary64, round to nearest, ties to
even): the exact result `q` of an operation is replaced by the nearest multiple of the
unit in the last place of its binade, `2 ^ (e - 52)` with `2 ^ e ≤ |q| < 2 ^ (e + 1)`, and
`e` is not taken below `-1022` (subnormal numbers). -/
def roundToDouble (q : ℚ) : ℚ :=
  let ulp : ℚ := 2 ^ (max (Int.log 2 |q|) (-1022) - 52)
  roundHalfEven (q / ulp) * ulp

/-- A rational that is the value of a `double`. -/
def IsDouble (q : ℚ) : Prop := roundToDouble q = q

instance (q : ℚ) : Decidable (IsDouble q) := by
  unfold IsDouble; infer_instance

/-! ## Toolkit model: events -/

/-- Modelled from the spec: the toolkit's `Qt::Orientation` of a wheel event. -/
inductive Qt.Orientation where
  | Horizontal
  | Vertical
deriving DecidableEq, Repr

/-- Modelled from the spec: the toolkit's `QPoint`, the type of `angleDelta()`. -/
structure QPoint where
  x : Int
  y : Int
deriving DecidableEq, Repr

/-- Modelled from the spec: the toolkit's `QWheelEvent`: the keyboard modifier flags, the
orientation, the angle delta of both axes and the accepted flag the event arrives with. -/
structure QWheelEvent where
  modifiers : Nat
  orientation : Qt.Orientation
  angleDelta : QPoint
  accepted : Bool
deriving DecidableEq, Repr

/-- Modelled from the spec: the toolkit's flag `Qt::ControlModifier`. -/
def Qt.ControlModifier : Nat := 0x04000000

/-- Modelled from the spec: the toolkit's `QEvent` as seen by `eventFilter`: the numeric
event type and, for a mouse event, the button that caused it. -/
structure QEvent where
  type : Nat
  button : Nat
deriving DecidableEq, Repr

/-- Modelled from the spec: the toolkit's event type `QEvent::MouseButtonPress`. -/
def QEvent.MouseButtonPress : Nat := 2

/-- Modelled from the spec: the toolkit's event type `QEvent::ContextMenu`. -/
def QEvent.ContextMenu : Nat := 82

/-- Modelled from the spec: the toolkit's button code `Qt::RightButton`. -/
def Qt.RightButton : Nat := 2

/-- Modelled from the spec: the base class draw `QGraphicsView::paintEvent`, which renders
the scene and is taken not to touch any part of the modelled state. -/
def QGraphicsView.paintEvent (st : ScalableWrapper) : ScalableWrapper := st

/-! ## The methods of `ScalableWrapper` -/

/-- The method `ScalableWrapper::setupScrollingSynchronization`. -/
def ScalableWrapper.setupScrollingSynchronization (st : ScalableWrapper)
    (_needSync : Bool) : ScalableWrapper :=
  if _needSync then
    (((st.connect .wrapperVerticalToEditor).connect .wrapperHorizontalToEditor).connect
      .editorVerticalToWrapper).connect .editorHorizontalToWrapper
  else
    (((st.disconnect .wrapperVerticalToEditor).disconnect
      .wrapperHorizontalToEditor).disconnect
      .editorVerticalToWrapper).disconnect .editorHorizontalToWrapper

/-- The constructor `ScalableWrapper::ScalableWrapper`. The arguments are what the toolkit
hands to it: the two scrollbars of the freshly created view, the two scrollbars of the
editor, the size of the viewport and the size the editor has when it is embedded. The
scene gets the rectangle `(0, 0, 1, 1)` and the editor proxy (scale `1`), the signals of
the wrapper's bars are disconnected, and the synchronisation is set up. -/
def ScalableWrapper.construct (wrapperVertical wrapperHorizontal editorVertical
    editorHorizontal : QScrollBar) (viewportWidth viewportHeight : Int)
    (editorSize : Int × Int) : ScalableWrapper :=
  let st : ScalableWrapper :=
    { m_zoomRange := 1
      verticalScrollBar := wrapperVertical
      horizontalScrollBar := wrapperHorizontal
      editorVerticalScrollBar := editorVertical
      editorHorizontalScrollBar := editorHorizontal
      connections := []
      viewportWidth := viewportWidth
      viewportHeight := viewportHeight
      editorProxyScale := 1
      editorProxySize := editorSize
      m_rect := (0, 0, 1, 1)
      menuProxyScales := [] }
  let st := st.disconnectAll .wrapperHorizontal
  let st := st.disconnectAll .wrapperVertical
  st.setupScrollingSynchronization true

/-- The method `ScalableWrapper::updateTextEditSize`. -/
def ScalableWrapper.updateTextEditSize (fuel : Nat) (st : ScalableWrapper) :
    Option ScalableWrapper :=
  let editorWidth : Int := qrealToInt
    (roundToDouble (roundToDouble (roundToDouble ((st.viewportWidth : ℚ) / st.m_zoomRange)
      + (st.editorVerticalScrollBar.width : ℚ)) + st.m_zoomRange))
  let editorHeight : Int := qrealToInt
    (roundToDouble (roundToDouble (roundToDouble ((st.viewportHeight : ℚ) / st.m_zoomRange)
      + (st.editorHorizontalScrollBar.height : ℚ)) + st.m_zoomRange))
  let st := { st with editorProxySize := (editorWidth, editorHeight) }
  let rectWidth := st.editorHorizontalScrollBar.maximum
  let rectHeight := st.editorVerticalScrollBar.maximum
  let st := { st with m_rect := (0, 0, rectWidth, rectHeight) }
  (QAbstractSlider.setMaximum fuel st .wrapperHorizontal rectWidth).bind fun st =>
    QAbstractSlider.setMaximum fuel st .wrapperVertical rectHeight

/-- The method `ScalableWrapper::scaleTextEdit`. -/
def ScalableWrapper.scaleTextEdit (st : ScalableWrapper) : ScalableWrapper :=
  let MINIMUM_ZOOM_RANGE : ℚ := 1 / 2
  let st :=
    if st.m_zoomRange < MINIMUM_ZOOM_RANGE then { st with m_zoomRange := MINIMUM_ZOOM_RANGE }
    else st
  { st with editorProxyScale := st.m_zoomRange }

/-- The method `ScalableWrapper::paintEvent`. -/
def ScalableWrapper.paintEvent (fuel : Nat) (st : ScalableWrapper) :
    Option ScalableWrapper :=
  (st.updateTextEditSize fuel).bind fun st =>
  let st := st.setupScrollingSynchronization false
  let verticalValue := st.verticalScrollBar.value
  let horizontalValue := st.horizontalScrollBar.value
  (QAbstractSlider.setValue fuel st .wrapperVertical 0).bind fun st =>
  (QAbstractSlider.setValue fuel st .wrapperHorizontal 0).bind fun st =>
  let st := QGraphicsView.paintEvent st
  (QAbstractSlider.setValue fuel st .wrapperVertical verticalValue).bind fun st =>
  (QAbstractSlider.setValue fuel st .wrapperHorizontal horizontalValue).bind fun st =>
  some (st.setupScrollingSynchronization true)

/-- The method `ScalableWrapper::wheelEvent`. The result is the new state and the accepted
flag of the event after the call. -/
def ScalableWrapper.wheelEvent (fuel : Nat) (st : ScalableWrapper) (_event : QWheelEvent) :
    Option (ScalableWrapper × Bool) :=
  let ANGLE_DIVIDER : Int := 120
  let ZOOM_COEFFICIENT_DIVIDER : ℚ := 10
  if _event.modifiers &&& Qt.ControlModifier ≠ 0 then
    if _event.orientation = Qt.Orientation.Vertical then
      let zoom : Int := Int.tdiv _event.angleDelta.y ANGLE_DIVIDER
      let step : ℚ := roundToDouble ((zoom : ℚ) / ZOOM_COEFFICIENT_DIVIDER)
      let st := { st with m_zoomRange := roundToDouble (st.m_zoomRange + step) }
      let st := st.scaleTextEdit
      some (st, true)
    else some (st, _event.accepted)
  else
    let scrollDelta : Int := Int.tdiv _event.angleDelta.y ANGLE_DIVIDER
    match _event.orientation with
    | Qt.Orientation.Horizontal =>
      (QAbstractSlider.setValue fuel st .wrapperHorizontal
        (st.horizontalScrollBar.value - scrollDelta * st.horizontalScrollBar.singleStep)).map
        fun st => (st, _event.accepted)
    | Qt.Orientation.Vertical =>
      (QAbstractSlider.setValue fuel st .wrapperVertical
        (st.verticalScrollBar.value - scrollDelta * st.verticalScrollBar.singleStep)).map
        fun st => (st, _event.accepted)

/-- The method `ScalableWrapper::eventFilter`. `base` is the result of the base class
handler `QGraphicsView::eventFilter` for this event. The result is the new state and the
returned flag. -/
def ScalableWrapper.eventFilter (st : ScalableWrapper) (_event : QEvent) (base : Bool) :
    ScalableWrapper × Bool :=
  let needShowMenu : Bool :=
    if _event.type = QEvent.MouseButtonPress then
      if _event.button = Qt.RightButton then true else false
    else if _event.type = QEvent.ContextMenu then true
    else false
  if needShowMenu then
    let antiZoom : ℚ := roundToDouble (1 / st.m_zoomRange)
    ({ st with menuProxyScales := antiZoom :: st.menuProxyScales }, true)
  else (st, base)

/-! ## Sequences of toolkit callbacks -/

/-- A callback the toolkit delivers to the wrapper. -/
inductive Callback where
  | wheel (event : QWheelEvent)
  | paint
  | filter (event : QEvent) (base : Bool)

/-- Deliver one callback. -/
def ScalableWrapper.deliver (fuel : Nat) (st : ScalableWrapper) :
    Callback → Option ScalableWrapper
  | .wheel event => (st.wheelEvent fuel event).map Prod.fst
  | .paint => st.paintEvent fuel
  | .filter event base => some (st.eventFilter event base).1

/-- Deliver a sequence of callbacks, first to last. -/
def ScalableWrapper.run (fuel : Nat) (st : ScalableWrapper) :
    List Callback → Option ScalableWrapper
  | [] => some st
  | c :: cs => (st.deliver fuel c).bind fun s => ScalableWrapper.run fuel s cs

/-- A number of render passes in a row. -/
def ScalableWrapper.paintEvents (fuel : Nat) (st : ScalableWrapper) :
    Nat → Option ScalableWrapper
  | 0 => some st
  | n + 1 => (st.paintEvent fuel).bind fun s => ScalableWrapper.paintEvents fuel s n

/-! ## Names for values that recur in the statements -/

/-- The connections made by `setupScrollingSynchronization(true)`, in the order of the
source. -/
def syncConnections : List Link :=
  [.wrapperVerticalToEditor, .wrapperHorizontalToEditor, .editorVerticalToWrapper,
    .editorHorizontalToWrapper]

/-- The size `updateTextEditSize` asks the editor proxy to take. -/
def editorSizeFor (st : ScalableWrapper) : Int × Int :=
  (qrealToInt
    (roundToDouble (roundToDouble (roundToDouble ((st.viewportWidth : ℚ) / st.m_zoomRange)
      + (st.editorVerticalScrollBar.width : ℚ)) + st.m_zoomRange)),
   qrealToInt
    (roundToDouble (roundToDouble (roundToDouble ((st.viewportHeight : ℚ) / st.m_zoomRange)
      + (st.editorHorizontalScrollBar.height : ℚ)) + st.m_zoomRange)))

/-- The state with the zoom factor and the scale of the editor proxy both set to `z`, as
the zoom branch of `wheelEvent` leaves them. -/
def ScalableWrapper.zoomedTo (st : ScalableWrapper) (z : ℚ) : ScalableWrapper :=
  { st with m_zoomRange := z, editorProxyScale := z }

/-! ## Concrete states used as examples -/

/-- A freshly constructed wrapper over an editor with a long document, on an 800 x 600
viewport. -/
def freshWrapper : ScalableWrapper :=
  ScalableWrapper.construct ⟨0, 99, 0, 1, 16, 600⟩ ⟨0, 99, 0, 1, 800, 16⟩
    ⟨0, 300, 0, 20, 16, 600⟩ ⟨0, 0, 0, 20, 800, 16⟩ 800 600 (256, 192)

/-- A freshly constructed wrapper over an editor with a long document, on a 1024 x 768
viewport. -/
def freshLargeWrapper : ScalableWrapper :=
  ScalableWrapper.construct ⟨0, 99, 0, 1, 16, 768⟩ ⟨0, 99, 0, 1, 1024, 16⟩
    ⟨0, 300, 0, 20, 16, 768⟩ ⟨0, 0, 0, 20, 1024, 16⟩ 1024 768 (256, 192)

/-- A well-formed state in which the wrapper's vertical bar stands at 50 of 100 while the
editor's vertical bar only reaches 10 and stands there, and both horizontal bars stand at
7 of 200. It is the state of a wrapper constructed over such an editor after one wheel
event on each axis and before the first render pass (see
`paintEvent_scroll_neutral_counterexample`). -/
def scrolledPastEnd : ScalableWrapper :=
  { m_zoomRange := 1
    verticalScrollBar := ⟨0, 100, 50, 1, 16, 600⟩
    horizontalScrollBar := ⟨0, 200, 7, 1, 800, 16⟩
    editorVerticalScrollBar := ⟨0, 10, 10, 20, 16, 600⟩
    editorHorizontalScrollBar := ⟨0, 200, 7, 20, 800, 16⟩
    connections := [.wrapperVerticalToEditor, .wrapperHorizontalToEditor,
      .editorVerticalToWrapper, .editorHorizontalToWrapper]
    viewportWidth := 800
    viewportHeight := 600
    editorProxyScale := 1
    editorProxySize := (817, 617)
    m_rect := (0, 0, 1, 1)
    menuProxyScales := [] }

/-- The state of a fresh wrapper after one zoom gesture of two notches: the zoom factor is
the double `1.2`. -/
def zoomedIn : ScalableWrapper :=
  { m_zoomRange := 5404319552844595 / 4503599627370496
    verticalScrollBar := ⟨0, 99, 0, 1, 16, 600⟩
    horizontalScrollBar := ⟨0, 99, 0, 1, 800, 16⟩
    editorVerticalScrollBar := ⟨0, 300, 0, 20, 16, 600⟩
    editorHorizontalScrollBar := ⟨0, 0, 0, 20, 800, 16⟩
    connections := [.wrapperVerticalToEditor, .wrapperHorizontalToEditor,
      .editorVerticalToWrapper, .editorHorizontalToWrapper]
    viewportWidth := 800
    viewportHeight := 600
    editorProxyScale := 5404319552844595 / 4503599627370496
    editorProxySize := (256, 192)
    m_rect := (0, 0, 1, 1)
    menuProxyScales := [] }

/-- The state of a fresh wrapper after one zoom gesture of nine notches: the zoom factor is
the double `1.9`. -/
def zoomedNineNotches : ScalableWrapper :=
  { m_zoomRange := 4278419646001971 / 2251799813685248
    verticalScrollBar := ⟨0, 99, 0, 1, 16, 600⟩
    horizontalScrollBar := ⟨0, 99, 0, 1, 800, 16⟩
    editorVerticalScrollBar := ⟨0, 300, 0, 20, 16, 600⟩
    editorHorizontalScrollBar := ⟨0, 0, 0, 20, 800, 16⟩
    connections := [.wrapperVerticalToEditor, .wrapperHorizontalToEditor,
      .editorVerticalToWrapper, .editorHorizontalToWrapper]
    viewportWidth := 800
    viewportHeight := 600
    editorProxyScale := 4278419646001971 / 2251799813685248
    editorProxySize := (256, 192)
    m_rect := (0, 0, 1, 1)
    menuProxyScales := [] }

/-- The state of a fresh wrapper with a 1024 x 768 viewport after zoom gestures of three,
eleven and six notches: the zoom factor is the double `3.0000000000000004`. -/
def zoomedThreeTimes : ScalableWrapper :=
  { m_zoomRange := 6755399441055745 / 2251799813685248
    verticalScrollBar := ⟨0, 99, 0, 1, 16, 768⟩
    horizontalScrollBar := ⟨0, 99, 0, 1, 1024, 16⟩
    editorVerticalScrollBar := ⟨0, 300, 0, 20, 16, 768⟩
    editorHorizontalScrollBar := ⟨0, 0, 0, 20, 1024, 16⟩
    connections := [.wrapperVerticalToEditor, .wrapperHorizontalToEditor,
      .editorVerticalToWrapper, .editorHorizontalToWrapper]
    viewportWidth := 1024
    viewportHeight := 768
    editorProxyScale := 6755399441055745 / 2251799813685248
    editorProxySize := (256, 192)
    m_rect := (0, 0, 1, 1)
    menuProxyScales := [] }

/-! ## Basic facts about the state accessors -/

theorem Bar.partner_partner (x : Bar) : x.partner.partner = x := by
  cases x <;> rfl

theorem Bar.partner_ne (x : Bar) : x.partner ≠ x := by
  cases x <;> decide

theorem Bar.ne_partner (x : Bar) : x ≠ x.partner := by
  cases x <;> decide

theorem Link.receiver_eq (l : Link) : l.receiver = l.sender.partner := by
  cases l <;> rfl

@[simp] theorem ScalableWrapper.bar_setBar_same (st : ScalableWrapper) (x : Bar)
    (b : QScrollBar) : (st.setBar x b).bar x = b := by
  cases x <;> rfl

theorem ScalableWrapper.bar_setBar_ne (st : ScalableWrapper) {x y : Bar} (b : QScrollBar)
    (h : y ≠ x) : (st.setBar x b).bar y = st.bar y := by
  cases x <;> cases y <;> first | rfl | exact absurd rfl h

@[simp] theorem ScalableWrapper.bar_setBar_partner (st : ScalableWrapper) (x : Bar)
    (b : QScrollBar) : (st.setBar x b).bar x.partner = st.bar x.partner :=
  st.bar_setBar_ne b x.partner_ne

@[simp] theorem ScalableWrapper.bar_partner_setBar (st : ScalableWrapper) (x : Bar)
    (b : QScrollBar) : (st.setBar x.partner b).bar x = st.bar x :=
  st.bar_setBar_ne b x.ne_partner

@[simp] theorem ScalableWrapper.setBar_connections (st : ScalableWrapper) (x : Bar)
    (b : QScrollBar) : (st.setBar x b).connections = st.connections := by
  cases x <;> rfl

@[simp] theorem ScalableWrapper.setBar_zoom (st : ScalableWrapper) (x : Bar)
    (b : QScrollBar) : (st.setBar x b).m_zoomRange = st.m_zoomRange := by
  cases x <;> rfl

@[simp] theorem ScalableWrapper.setBar_rect (st : ScalableWrapper) (x : Bar)
    (b : QScrollBar) : (st.setBar x b).m_rect = st.m_rect := by
  cases x <;> rfl

@[simp] theorem ScalableWrapper.setBar_proxySize (st : ScalableWrapper) (x : Bar)
    (b : QScrollBar) : (st.setBar x b).editorProxySize = st.editorProxySize := by
  cases x <;> rfl

@[simp] theorem ScalableWrapper.setBar_proxyScale (st : ScalableWrapper) (x : Bar)
    (b : QScrollBar) : (st.setBar x b).editorProxyScale = st.editorProxyScale := by
  cases x <;> rfl

@[simp] theorem ScalableWrapper.setBar_menus (st : ScalableWrapper) (x : Bar)
    (b : QScrollBar) : (st.setBar x b).menuProxyScales = st.menuProxyScales := by
  cases x <;> rfl

@[simp] theorem ScalableWrapper.setBar_viewportWidth (st : ScalableWrapper) (x : Bar)
    (b : QScrollBar) : (st.setBar x b).viewportWidth = st.viewportWidth := by
  cases x <;> rfl

@[simp] theorem ScalableWrapper.setBar_viewportHeight (st : ScalableWrapper) (x : Bar)
    (b : QScrollBar) : (st.setBar x b).viewportHeight = st.viewportHeight := by
  cases x <;> rfl

@[simp] theorem ScalableWrapper.setBar_setBar (st : ScalableWrapper) (x : Bar)
    (b c : QScrollBar) : (st.setBar x b).setBar x c = st.setBar x c := by
  cases x <;> rfl

theorem ScalableWrapper.setBar_comm (st : ScalableWrapper) {x y : Bar} (b c : QScrollBar)
    (h : x ≠ y) : (st.setBar x b).setBar y c = (st.setBar y c).setBar x b := by
  cases x <;> cases y <;> first | rfl | exact absurd rfl h

@[simp] theorem ScalableWrapper.setBar_bar (st : ScalableWrapper) (x : Bar) :
    st.setBar x (st.bar x) = st := by
  cases x <;> rfl

@[simp] theorem ScalableWrapper.setValueOf_same (st : ScalableWrapper) (x : Bar) :
    st.setValueOf x (st.bar x).value = st := by
  unfold ScalableWrapper.setValueOf
  have h : ({ st.bar x with value := (st.bar x).value } : QScrollBar) = st.bar x := rfl
  rw [h, st.setBar_bar]

@[simp] theorem ScalableWrapper.setValueOf_bar_same (st : ScalableWrapper) (x : Bar) (v : Int) :
    (st.setValueOf x v).bar x = { st.bar x with value := v } := by
  simp [ScalableWrapper.setValueOf]

@[simp] theorem ScalableWrapper.setValueOf_bar_partner (st : ScalableWrapper) (x : Bar)
    (v : Int) : (st.setValueOf x v).bar x.partner = st.bar x.partner := by
  simp [ScalableWrapper.setValueOf]

@[simp] theorem ScalableWrapper.setValueOf_partner_bar (st : ScalableWrapper) (x : Bar)
    (v : Int) : (st.setValueOf x.partner v).bar x = st.bar x := by
  simp [ScalableWrapper.setValueOf]

theorem ScalableWrapper.setValueOf_bar_ne (st : ScalableWrapper) {x y : Bar} (v : Int)
    (h : y ≠ x) : (st.setValueOf x v).bar y = st.bar y := by
  simp [ScalableWrapper.setValueOf, st.bar_setBar_ne _ h]

@[simp] theorem ScalableWrapper.setValueOf_connections (st : ScalableWrapper) (x : Bar)
    (v : Int) : (st.setValueOf x v).connections = st.connections := by
  simp [ScalableWrapper.setValueOf]

@[simp] theorem ScalableWrapper.setValueOf_zoom (st : ScalableWrapper) (x : Bar)
    (v : Int) : (st.setValueOf x v).m_zoomRange = st.m_zoomRange := by
  simp [ScalableWrapper.setValueOf]

@[simp] theorem ScalableWrapper.setValueOf_rect (st : ScalableWrapper) (x : Bar)
    (v : Int) : (st.setValueOf x v).m_rect = st.m_rect := by
  simp [ScalableWrapper.setValueOf]

@[simp] theorem ScalableWrapper.setValueOf_proxySize (st : ScalableWrapper) (x : Bar)
    (v : Int) : (st.setValueOf x v).editorProxySize = st.editorProxySize := by
  simp [ScalableWrapper.setValueOf]

@[simp] theorem ScalableWrapper.setValueOf_proxyScale (st : ScalableWrapper) (x : Bar)
    (v : Int) : (st.setValueOf x v).editorProxyScale = st.editorProxyScale := by
  simp [ScalableWrapper.setValueOf]

@[simp] theorem ScalableWrapper.setValueOf_menus (st : ScalableWrapper) (x : Bar)
    (v : Int) : (st.setValueOf x v).menuProxyScales = st.menuProxyScales := by
  simp [ScalableWrapper.setValueOf]

@[simp] theorem ScalableWrapper.setValueOf_viewportWidth (st : ScalableWrapper) (x : Bar)
    (v : Int) : (st.setValueOf x v).viewportWidth = st.viewportWidth := by
  simp [ScalableWrapper.setValueOf]

@[simp] theorem ScalableWrapper.setValueOf_viewportHeight (st : ScalableWrapper) (x : Bar)
    (v : Int) : (st.setValueOf x v).viewportHeight = st.viewportHeight := by
  simp [ScalableWrapper.setValueOf]

@[simp] theorem ScalableWrapper.setValueOf_setValueOf (st : ScalableWrapper) (x : Bar)
    (v w : Int) : (st.setValueOf x v).setValueOf x w = st.setValueOf x w := by
  simp [ScalableWrapper.setValueOf]

theorem ScalableWrapper.setValueOf_comm (st : ScalableWrapper) {x y : Bar} (v w : Int)
    (h : x ≠ y) : (st.setValueOf x v).setValueOf y w = (st.setValueOf y w).setValueOf x v := by
  unfold ScalableWrapper.setValueOf
  rw [st.bar_setBar_ne _ h.symm, st.bar_setBar_ne _ h, st.setBar_comm _ _ h]

/-! ## Facts about clamping -/

theorem QScrollBar.bound_idem (b : QScrollBar) (v : Int) : b.bound (b.bound v) = b.bound v := by
  unfold QScrollBar.bound; omega

theorem QScrollBar.bound_of_wellFormed {b : QScrollBar} (h : b.WellFormed) :
    b.bound b.value = b.value := by
  unfold QScrollBar.WellFormed at h; unfold QScrollBar.bound; omega

/-- Clamping to one range, then to another, then to the first again gives the same as the
last two steps alone when the start already lies in the second range. -/
theorem QScrollBar.bound_bound_bound (b c : QScrollBar) (u : Int) (h : c.bound u = u) :
    b.bound (c.bound (b.bound u)) = b.bound u := by
  unfold QScrollBar.bound at *; omega

@[simp] theorem QScrollBar.bound_with_value (b : QScrollBar) (w v : Int) :
    ({ b with value := w } : QScrollBar).bound v = b.bound v := rfl

/-! ## Double arithmetic: facts about the rounding -/

theorem roundHalfEven_eq (x : ℚ) (n : Int)
    (h : |x - n| < 1 / 2 ∨ (|x - n| = 1 / 2 ∧ n % 2 = 0)) : roundHalfEven x = n := by
  have hfl := Int.floor_le x
  have hlt := Int.lt_floor_add_one x
  have hle : |x - n| ≤ 1 / 2 := by
    rcases h with h | ⟨h, -⟩
    · exact le_of_lt h
    · exact le_of_eq h
  rw [abs_le] at hle
  have h1 : (n : ℚ) - 2 < ⌊x⌋ := by linarith
  have h2 : (⌊x⌋ : ℚ) < n + 1 := by linarith
  have h1' : n - 2 < ⌊x⌋ := by exact_mod_cast h1
  have h2' : ⌊x⌋ < n + 1 := by exact_mod_cast h2
  have hcases : ⌊x⌋ = n ∨ ⌊x⌋ = n - 1 := by omega
  unfold roundHalfEven
  rcases hcases with hf | hf
  · rw [hf]
    rcases h with h | ⟨h, hn⟩
    · rw [abs_lt] at h
      rw [if_pos h.2]
    · rcases (abs_eq (by norm_num : (0 : ℚ) ≤ 1 / 2)).mp h with h | h
      · rw [if_neg (by linarith), if_neg (by linarith), if_pos hn]
      · rw [if_pos (by linarith)]
  · rw [hf]
    rw [hf] at hfl hlt
    push_cast at hfl hlt ⊢
    rcases h with h | ⟨h, hn⟩
    · rw [abs_lt] at h
      rw [if_neg (by linarith), if_pos (by linarith)]
      ring
    · rcases (abs_eq (by norm_num : (0 : ℚ) ≤ 1 / 2)).mp h with h | h
      · exfalso; linarith
      · rw [if_neg (by linarith), if_neg (by linarith), if_neg (by omega)]
        ring

theorem roundHalfEven_abs_sub_le (x : ℚ) : |(roundHalfEven x : ℚ) - x| ≤ 1 / 2 := by
  have hfl := Int.floor_le x
  have hlt := Int.lt_floor_add_one x
  unfold roundHalfEven
  rw [abs_le]
  split_ifs <;> push_cast <;> constructor <;> linarith

theorem roundToDouble_eq (q c : ℚ) (e n : Int) (hq : 0 < |q|) (he1 : (2 : ℚ) ^ e ≤ |q|)
    (he2 : |q| < (2 : ℚ) ^ (e + 1)) (hmin : -1022 ≤ e) (hc : c = n * (2 : ℚ) ^ (e - 52))
    (hn : |q - c| < (2 : ℚ) ^ (e - 53) ∨ (|q - c| = (2 : ℚ) ^ (e - 53) ∧ n % 2 = 0)) :
    roundToDouble q = c := by
  have hlog : Int.log 2 |q| = e := by
    have h1 : e ≤ Int.log 2 |q| :=
      (Int.zpow_le_iff_le_log (by norm_num) hq).mp (by exact_mod_cast he1)
    have h2 : Int.log 2 |q| < e + 1 :=
      (Int.lt_zpow_iff_log_lt (by norm_num) hq).mp (by exact_mod_cast he2)
    omega
  unfold roundToDouble
  simp only [hlog, max_eq_left hmin]
  have hu : (0 : ℚ) < 2 ^ (e - 52) := by positivity
  have h53 : (2 : ℚ) ^ (e - 53) = 2 ^ (e - 52) * (1 / 2) := by
    rw [show e - 53 = (e - 52) + (-1) by ring, zpow_add₀ (by norm_num)]
    norm_num
  have hdiv : |q / 2 ^ (e - 52) - n| = |q - c| / 2 ^ (e - 52) := by
    rw [hc, ← abs_of_pos hu, ← abs_div, abs_of_pos hu]
    congr 1
    field_simp
    ring
  rw [roundHalfEven_eq (q / 2 ^ (e - 52)) n, hc]
  rw [hdiv]
  rw [h53] at hn
  rcases hn with hn | ⟨hn, hev⟩
  · left
    rw [div_lt_iff₀ hu]
    linarith
  · right
    refine ⟨?_, hev⟩
    rw [hn]
    field_simp
    ring

theorem roundToDouble_abs_sub_le (q : ℚ) (h : (2 : ℚ) ^ (-1022 : Int) ≤ |q|) :
    |roundToDouble q - q| ≤ |q| * 2 ^ (-53 : Int) := by
  have hq : 0 < |q| := lt_of_lt_of_le (by positivity) h
  have hmin : (-1022 : Int) ≤ Int.log 2 |q| :=
    (Int.zpow_le_iff_le_log (by norm_num) hq).mp (by exact_mod_cast h)
  have hle : ((2 : ℕ) : ℚ) ^ Int.log 2 |q| ≤ |q| := Int.zpow_log_le_self (by norm_num) hq
  have hle2 : (2 : ℚ) ^ Int.log 2 |q| ≤ |q| := by exact_mod_cast hle
  have e2 : (2 : ℚ) ^ (Int.log 2 |q| - 52) = 2 ^ Int.log 2 |q| * 2 ^ (-52 : Int) := by
    rw [sub_eq_add_neg, zpow_add₀ (by norm_num)]
  have hu : (0 : ℚ) < 2 ^ (Int.log 2 |q| - 52) := by positivity
  have hub : (2 : ℚ) ^ (Int.log 2 |q| - 52) ≤ |q| * 2 ^ (-52 : Int) := by
    rw [e2]
    exact mul_le_mul_of_nonneg_right hle2 (by positivity)
  unfold roundToDouble
  simp only [max_eq_left hmin]
  generalize (2 : ℚ) ^ (Int.log 2 |q| - 52) = u at hu hub
  have hr := roundHalfEven_abs_sub_le (q / u)
  have e1 : (roundHalfEven (q / u) : ℚ) * u - q = ((roundHalfEven (q / u) : ℚ) - q / u) * u := by
    field_simp
  rw [e1, abs_mul, abs_of_pos hu]
  have e3 : (2 : ℚ) ^ (-53 : Int) = 2 ^ (-52 : Int) * (1 / 2) := by norm_num
  rw [e3]
  calc |(roundHalfEven (q / u) : ℚ) - q / u| * u ≤ 1 / 2 * u :=
        mul_le_mul_of_nonneg_right hr (le_of_lt hu)
    _ ≤ 1 / 2 * (|q| * 2 ^ (-52 : Int)) := by
        apply mul_le_mul_of_nonneg_left hub (by norm_num)
    _ = |q| * (2 ^ (-52 : Int) * (1 / 2)) := by ring

theorem roundToDouble_eq_of_pos (q c : ℚ) (e n : Int) (hq : 0 < q) (he1 : (2 : ℚ) ^ e ≤ q)
    (he2 : q < (2 : ℚ) ^ (e + 1)) (hmin : -1022 ≤ e) (hc : c = n * (2 : ℚ) ^ (e - 52))
    (hn : |q - c| < (2 : ℚ) ^ (e - 53)) : roundToDouble q = c :=
  roundToDouble_eq q c e n (abs_pos.mpr (ne_of_gt hq)) (by rwa [abs_of_pos hq])
    (by rwa [abs_of_pos hq]) hmin hc (Or.inl hn)

theorem roundToDouble_eq_of_neg (q c : ℚ) (e n : Int) (hq : q < 0) (he1 : (2 : ℚ) ^ e ≤ -q)
    (he2 : -q < (2 : ℚ) ^ (e + 1)) (hmin : -1022 ≤ e) (hc : c = n * (2 : ℚ) ^ (e - 52))
    (hn : |q - c| < (2 : ℚ) ^ (e - 53)) : roundToDouble q = c :=
  roundToDouble_eq q c e n (abs_pos.mpr (ne_of_lt hq)) (by rwa [abs_of_neg hq])
    (by rwa [abs_of_neg hq]) hmin hc (Or.inl hn)

theorem roundHalfEven_intCast (m : Int) : roundHalfEven (m : ℚ) = m :=
  roundHalfEven_eq _ m (Or.inl (by simp))

theorem roundToDouble_zero : roundToDouble 0 = 0 := by
  unfold roundToDouble
  simp [roundHalfEven_intCast 0, show roundHalfEven (0 : ℚ) = 0 from roundHalfEven_intCast 0]

/-- A multiple `n * 2 ^ (E - 52)` of a power of two with `|n| ≤ 2 ^ 53` and `E ≥ -1022` is a
double: rounding leaves it as it is. -/
theorem roundToDouble_of_representable (n E : Int) (hE : -1022 ≤ E)
    (hn : |n| ≤ 2 ^ 53) : roundToDouble (n * (2 : ℚ) ^ (E - 52)) = n * (2 : ℚ) ^ (E - 52) := by
  rcases eq_or_ne n 0 with rfl | hn0
  · simpa using roundToDouble_zero
  have h2 : (2 : ℚ) ≠ 0 := by norm_num
  have hu : (0 : ℚ) < 2 ^ (E - 52) := by positivity
  have hnq : (|n| : ℚ) ≤ 2 ^ (53 : Int) := by
    have h : ((|n| : Int) : ℚ) ≤ ((2 ^ 53 : Int) : ℚ) := by exact_mod_cast hn
    have e : ((2 ^ 53 : Int) : ℚ) = (2 : ℚ) ^ (53 : Int) := by norm_num
    rw [Int.cast_abs, e] at h
    exact h
  have habs : |(n : ℚ) * 2 ^ (E - 52)| = |(n : ℚ)| * 2 ^ (E - 52) := by
    rw [abs_mul, abs_of_pos hu]
  have hq : 0 < |(n : ℚ) * 2 ^ (E - 52)| := by
    rw [habs]
    have : (0 : ℚ) < |(n : ℚ)| := abs_pos.mpr (by exact_mod_cast hn0)
    positivity
  have hupper : |(n : ℚ) * 2 ^ (E - 52)| ≤ 2 ^ (E + 1) := by
    rw [habs, show E + 1 = 53 + (E - 52) by ring, zpow_add₀ h2]
    exact mul_le_mul_of_nonneg_right hnq (le_of_lt hu)
  have hlog_le : Int.log 2 |(n : ℚ) * 2 ^ (E - 52)| ≤ E + 1 := by
    by_contra hcon
    push_neg at hcon
    have h1 : ((2 : ℕ) : ℚ) ^ (E + 2) ≤ |(n : ℚ) * 2 ^ (E - 52)| :=
      (Int.zpow_le_iff_le_log (by norm_num) hq).mpr (by omega)
    have h3 : (2 : ℚ) ^ (E + 1) < 2 ^ (E + 2) := zpow_lt_zpow_right₀ (by norm_num) (by omega)
    have h4 : (2 : ℚ) ^ (E + 2) ≤ |(n : ℚ) * 2 ^ (E - 52)| := by exact_mod_cast h1
    linarith
  unfold roundToDouble
  generalize hlog : Int.log 2 |(n : ℚ) * 2 ^ (E - 52)| = e at hlog_le
  rcases lt_or_eq_of_le hlog_le with hlt | heq
  · -- the exponent of the value is at most `E`
    have hEc : max e (-1022) ≤ E := by
      rcases le_total e (-1022) with h | h
      · rw [max_eq_right h]; exact hE
      · rw [max_eq_left h]; omega
    obtain ⟨k, hk⟩ := Int.eq_ofNat_of_zero_le (show 0 ≤ E - max e (-1022) by omega)
    have hdiv : (n : ℚ) * 2 ^ (E - 52) / 2 ^ (max e (-1022) - 52) = ((n * 2 ^ k : Int) : ℚ) := by
      rw [mul_div_assoc, ← zpow_sub₀ h2,
        show E - 52 - (max e (-1022) - 52) = E - max e (-1022) by ring, hk]
      push_cast
      rw [zpow_natCast]
    simp only [hdiv, roundHalfEven_intCast]
    push_cast
    rw [mul_assoc, ← zpow_natCast, ← hk, ← zpow_add₀ h2]
    congr 2
    ring
  · -- the value is `± 2 ^ (E + 1)`
    subst heq
    have hlow : ((2 : ℕ) : ℚ) ^ (E + 1) ≤ |(n : ℚ) * 2 ^ (E - 52)| := by
      rw [← hlog]; exact Int.zpow_log_le_self (by norm_num) hq
    have hlow2 : (2 : ℚ) ^ (E + 1) ≤ |(n : ℚ)| * 2 ^ (E - 52) := by
      rw [← habs]; exact_mod_cast hlow
    rw [show E + 1 = 53 + (E - 52) by ring, zpow_add₀ h2] at hlow2
    have hge : (2 : ℚ) ^ (53 : Int) ≤ |(n : ℚ)| := le_of_mul_le_mul_right hlow2 hu
    have hnabs : |n| = 2 ^ 53 := by
      apply le_antisymm hn
      have e : ((2 ^ 53 : Int) : ℚ) = (2 : ℚ) ^ (53 : Int) := by norm_num
      have h : ((2 ^ 53 : Int) : ℚ) ≤ ((|n| : Int) : ℚ) := by
        rw [Int.cast_abs, e]; exact hge
      exact_mod_cast h
    have hmax : max (E + 1) (-1022) = E + 1 := max_eq_left (by omega)
    have hnval : n = 2 ^ 53 ∨ n = -2 ^ 53 := by
      rcases abs_cases n with ⟨h, -⟩ | ⟨h, -⟩ <;> [left; right] <;> omega
    have hdiv : ∃ m : Int, (n : ℚ) * 2 ^ (E - 52) / 2 ^ (max (E + 1) (-1022) - 52) = (m : ℚ) ∧
        (m : ℚ) * 2 ^ (max (E + 1) (-1022) - 52) = n * 2 ^ (E - 52) := by
      have hpow : (2 : ℚ) ^ (E + 1 - 52) = 2 * 2 ^ (E - 52) := by
        rw [show E + 1 - 52 = 1 + (E - 52) by ring, zpow_add₀ h2, zpow_one]
      rw [hmax, hpow]
      rcases hnval with h | h
      · refine ⟨2 ^ 52, ?_, ?_⟩
        · rw [h]; push_cast; field_simp; ring
        · rw [h]; push_cast; ring
      · refine ⟨-2 ^ 52, ?_, ?_⟩
        · rw [h]; push_cast; field_simp; ring
        · rw [h]; push_cast; ring
    obtain ⟨m, hm1, hm2⟩ := hdiv
    dsimp only
    rw [hm1, roundHalfEven_intCast, hm2]

theorem roundHalfEven_abs_le (x : ℚ) (N : Int) (h : |x| ≤ N) :
    |roundHalfEven x| ≤ N := by
  have hfl := Int.floor_le x
  have hlt := Int.lt_floor_add_one x
  rw [abs_le] at h ⊢
  have h1 : -N ≤ ⌊x⌋ := by
    rw [Int.le_floor]; push_cast; exact h.1
  have h2 : ⌊x⌋ ≤ N := by
    have : (⌊x⌋ : ℚ) ≤ N := le_trans hfl h.2
    exact_mod_cast this
  unfold roundHalfEven
  split_ifs with a b c
  · exact ⟨h1, h2⟩
  · refine ⟨by omega, ?_⟩
    have : (⌊x⌋ : ℚ) + 1 / 2 < N := by linarith
    have : (⌊x⌋ : ℚ) < N := by linarith
    have : ⌊x⌋ < N := by exact_mod_cast this
    omega
  · exact ⟨h1, h2⟩
  · refine ⟨by omega, ?_⟩
    have hx : x - ⌊x⌋ = 1 / 2 := le_antisymm (not_lt.mp b) (not_lt.mp a)
    have : (⌊x⌋ : ℚ) < N := by linarith
    have : ⌊x⌋ < N := by exact_mod_cast this
    omega

/-- Rounding is idempotent: the result of a rounding is a double. -/
theorem roundToDouble_idem (q : ℚ) : roundToDouble (roundToDouble q) = roundToDouble q := by
  rcases eq_or_ne q 0 with rfl | hq0
  · rw [roundToDouble_zero, roundToDouble_zero]
  have hq : 0 < |q| := abs_pos.mpr hq0
  have hE : -1022 ≤ max (Int.log 2 |q|) (-1022) := le_max_right _ _
  have hrep : roundToDouble q =
      (roundHalfEven (q / 2 ^ (max (Int.log 2 |q|) (-1022) - 52)) : ℚ)
        * 2 ^ (max (Int.log 2 |q|) (-1022) - 52) := rfl
  rw [hrep]
  apply roundToDouble_of_representable _ _ hE
  apply roundHalfEven_abs_le
  have hu : (0 : ℚ) < 2 ^ (max (Int.log 2 |q|) (-1022) - 52) := by positivity
  rw [abs_div, abs_of_pos hu, div_le_iff₀ hu]
  have hlt : |q| < ((2 : ℕ) : ℚ) ^ (Int.log 2 |q| + 1) := Int.lt_zpow_succ_log_self (by norm_num) _
  have hlt2 : |q| < (2 : ℚ) ^ (Int.log 2 |q| + 1) := by exact_mod_cast hlt
  have hmono : (2 : ℚ) ^ (Int.log 2 |q| + 1) ≤ 2 ^ (max (Int.log 2 |q|) (-1022) + 1) :=
    zpow_le_zpow_right₀ (by norm_num) (by have := le_max_left (Int.log 2 |q|) (-1022); omega)
  have e53 : ((2 ^ 53 : Int) : ℚ) = (2 : ℚ) ^ (53 : Int) := by norm_num
  have hsplit : (2 : ℚ) ^ (max (Int.log 2 |q|) (-1022) + 1)
      = (2 : ℚ) ^ (53 : Int) * 2 ^ (max (Int.log 2 |q|) (-1022) - 52) := by
    rw [← zpow_add₀ (by norm_num)]
    congr 1
    ring
  rw [e53, ← hsplit]
  linarith

/-- The truncation of a rational that is not negative and lies in `[n, n + 1)` is `n`. -/
theorem qrealToInt_eq_of_nonneg (q : ℚ) (n : Int) (h0 : 0 ≤ q) (h1 : (n : ℚ) ≤ q)
    (h2 : q < n + 1) : qrealToInt q = n := by
  unfold qrealToInt
  rw [if_pos h0, Int.floor_eq_iff]
  exact ⟨h1, h2⟩

/-! ## Double arithmetic: the values used in the examples -/

/-- The double nearest to `1/10`. -/
theorem roundToDouble_one_tenths :
    roundToDouble (((1 : Int) : ℚ) / 10) = 3602879701896397 / 36028797018963968 := by
  apply roundToDouble_eq_of_pos _ _ (-4) (7205759403792794) <;> norm_num [abs_lt]

/-- The double nearest to `-1/10`. -/
theorem roundToDouble_minus_one_tenths :
    roundToDouble (((-1 : Int) : ℚ) / 10) = -3602879701896397 / 36028797018963968 := by
  apply roundToDouble_eq_of_neg _ _ (-4) (-7205759403792794) <;> norm_num [abs_lt]

/-- The double nearest to `2/10`. -/
theorem roundToDouble_two_tenths :
    roundToDouble (((2 : Int) : ℚ) / 10) = 3602879701896397 / 18014398509481984 := by
  apply roundToDouble_eq_of_pos _ _ (-3) (7205759403792794) <;> norm_num [abs_lt]

/-- The double nearest to `-2/10`. -/
theorem roundToDouble_minus_two_tenths :
    roundToDouble (((-2 : Int) : ℚ) / 10) = -3602879701896397 / 18014398509481984 := by
  apply roundToDouble_eq_of_neg _ _ (-3) (-7205759403792794) <;> norm_num [abs_lt]

/-- The double nearest to `3/10`. -/
theorem roundToDouble_three_tenths :
    roundToDouble (((3 : Int) : ℚ) / 10) = 5404319552844595 / 18014398509481984 := by
  apply roundToDouble_eq_of_pos _ _ (-2) (5404319552844595) <;> norm_num [abs_lt]

/-- The double nearest to `6/10`. -/
theorem roundToDouble_six_tenths :
    roundToDouble (((6 : Int) : ℚ) / 10) = 5404319552844595 / 9007199254740992 := by
  apply roundToDouble_eq_of_pos _ _ (-1) (5404319552844595) <;> norm_num [abs_lt]

/-- The double nearest to `9/10`. -/
theorem roundToDouble_nine_tenths :
    roundToDouble (((9 : Int) : ℚ) / 10) = 8106479329266893 / 9007199254740992 := by
  apply roundToDouble_eq_of_pos _ _ (-1) (8106479329266893) <;> norm_num [abs_lt]

/-- The double nearest to `11/10`. -/
theorem roundToDouble_eleven_tenths :
    roundToDouble (((11 : Int) : ℚ) / 10) = 2476979795053773 / 2251799813685248 := by
  apply roundToDouble_eq_of_pos _ _ (0) (4953959590107546) <;> norm_num [abs_lt]

/-- In doubles `1.0 + 0.1` is `1.1`. -/
theorem roundToDouble_step_up_1 :
    roundToDouble (1 + 3602879701896397 / 36028797018963968) = 2476979795053773 / 2251799813685248 := by
  apply roundToDouble_eq_of_pos _ _ (0) (4953959590107546) <;> norm_num [abs_lt]

/-- In doubles `1.1 - 0.2` is `0.9000000000000001`. -/
theorem roundToDouble_step_down_1 :
    roundToDouble (2476979795053773 / 2251799813685248 + (-3602879701896397 / 18014398509481984)) = 4053239664633447 / 4503599627370496 := by
  apply roundToDouble_eq _ _ (-1) (8106479329266894) (by norm_num) (by norm_num [abs_of_pos])
    (by norm_num [abs_of_pos]) (by norm_num) (by norm_num)
  right
  constructor
  · norm_num [abs_of_neg, abs_of_pos]
  · decide

/-- In doubles `0.9000000000000001 - 0.2` is `0.7000000000000002`. -/
theorem roundToDouble_step_down_2 :
    roundToDouble (4053239664633447 / 4503599627370496 + (-3602879701896397 / 18014398509481984)) = 788129934789837 / 1125899906842624 := by
  apply roundToDouble_eq _ _ (-1) (6305039478318696) (by norm_num) (by norm_num [abs_of_pos])
    (by norm_num [abs_of_pos]) (by norm_num) (by norm_num)
  right
  constructor
  · norm_num [abs_of_neg, abs_of_pos]
  · decide

/-- In doubles `0.7000000000000002 - 0.2` is `0.5000000000000002`. -/
theorem roundToDouble_step_down_3 :
    roundToDouble (788129934789837 / 1125899906842624 + (-3602879701896397 / 18014398509481984)) = 2251799813685249 / 4503599627370496 := by
  apply roundToDouble_eq _ _ (-1) (4503599627370498) (by norm_num) (by norm_num [abs_of_pos])
    (by norm_num [abs_of_pos]) (by norm_num) (by norm_num)
  right
  constructor
  · norm_num [abs_of_neg, abs_of_pos]
  · decide

/-- In doubles `0.5000000000000002 - 0.2` is `0.3000000000000002`. -/
theorem roundToDouble_step_down_4 :
    roundToDouble (2251799813685249 / 4503599627370496 + (-3602879701896397 / 18014398509481984)) = 5404319552844599 / 18014398509481984 := by
  apply roundToDouble_eq_of_pos _ _ (-2) (5404319552844599) <;> norm_num [abs_lt]

/-- In doubles `0.5 - 0.2` is `0.3`. -/
theorem roundToDouble_step_down_5 :
    roundToDouble (1 / 2 + (-3602879701896397 / 18014398509481984)) = 5404319552844595 / 18014398509481984 := by
  apply roundToDouble_eq_of_pos _ _ (-2) (5404319552844595) <;> norm_num [abs_lt]

/-- In doubles `1.0 + 0.3` is `1.3`. -/
theorem roundToDouble_triple_1 :
    roundToDouble (1 + 5404319552844595 / 18014398509481984) = 5854679515581645 / 4503599627370496 := by
  apply roundToDouble_eq_of_pos _ _ (0) (5854679515581645) <;> norm_num [abs_lt]

/-- In doubles `1.3 + 1.1` is `2.4000000000000004`. -/
theorem roundToDouble_triple_2 :
    roundToDouble (5854679515581645 / 4503599627370496 + 2476979795053773 / 2251799813685248) = 1351079888211149 / 562949953421312 := by
  apply roundToDouble_eq _ _ (1) (5404319552844596) (by norm_num) (by norm_num [abs_of_pos])
    (by norm_num [abs_of_pos]) (by norm_num) (by norm_num)
  right
  constructor
  · norm_num [abs_of_neg, abs_of_pos]
  · decide

/-- In doubles `2.4000000000000004 + 0.6` is `3.0000000000000004`. -/
theorem roundToDouble_triple_3 :
    roundToDouble (1351079888211149 / 562949953421312 + 5404319552844595 / 9007199254740992) = 6755399441055745 / 2251799813685248 := by
  apply roundToDouble_eq_of_pos _ _ (1) (6755399441055745) <;> norm_num [abs_lt]

/-- In doubles `1.0 + 0.9` is `1.9`. -/
theorem roundToDouble_nine_up :
    roundToDouble (1 + 8106479329266893 / 9007199254740992) = 4278419646001971 / 2251799813685248 := by
  apply roundToDouble_eq _ _ (0) (8556839292003942) (by norm_num) (by norm_num [abs_of_pos])
    (by norm_num [abs_of_pos]) (by norm_num) (by norm_num)
  right
  constructor
  · norm_num [abs_of_neg, abs_of_pos]
  · decide

/-- In doubles `1.0 + 0.2` is `1.2`. -/
theorem roundToDouble_two_up :
    roundToDouble (1 + 3602879701896397 / 18014398509481984) = 5404319552844595 / 4503599627370496 := by
  apply roundToDouble_eq_of_pos _ _ (0) (5404319552844595) <;> norm_num [abs_lt]

/-- In doubles `1.2 - 0.1` is `1.0999999999999999`. -/
theorem roundToDouble_two_up_one_down :
    roundToDouble (5404319552844595 / 4503599627370496 + (-3602879701896397 / 36028797018963968)) = 4953959590107545 / 4503599627370496 := by
  apply roundToDouble_eq_of_pos _ _ (0) (4953959590107545) <;> norm_num [abs_lt]

/-- In doubles `768 / 3.0000000000000004` is `255.99999999999997`. -/
theorem roundToDouble_height_div :
    roundToDouble (((768 : Int) : ℚ) / (6755399441055745 / 2251799813685248)) = 9007199254740991 / 35184372088832 := by
  apply roundToDouble_eq_of_pos _ _ (7) (9007199254740991) <;> norm_num [abs_lt]

/-- In doubles `255.99999999999997 + 16` is `272` (a tie, rounded to even). -/
theorem roundToDouble_height_bar :
    roundToDouble (9007199254740991 / 35184372088832 + ((16 : Int) : ℚ)) = 272 := by
  apply roundToDouble_eq _ _ (8) (4785074604081152) (by norm_num) (by norm_num [abs_of_pos])
    (by norm_num [abs_of_pos]) (by norm_num) (by norm_num)
  right
  constructor
  · norm_num [abs_of_neg, abs_of_pos]
  · decide

/-- In doubles `272 + 3.0000000000000004` is `275`. -/
theorem roundToDouble_height_zoom :
    roundToDouble (272 + 6755399441055745 / 2251799813685248) = 275 := by
  apply roundToDouble_eq_of_pos _ _ (8) (4837851162214400) <;> norm_num [abs_lt]

/-- In doubles `800 / 1` is `800`. -/
theorem roundToDouble_800_div_1 :
    roundToDouble (((800 : Int) : ℚ) / 1) = 800 := by
  apply roundToDouble_eq_of_pos _ _ (9) (7036874417766400) <;> norm_num [abs_lt]

/-- In doubles `800 + 16` is `816`. -/
theorem roundToDouble_800_bar :
    roundToDouble (800 + ((16 : Int) : ℚ)) = 816 := by
  apply roundToDouble_eq_of_pos _ _ (9) (7177611906121728) <;> norm_num [abs_lt]

/-- In doubles `816 + 1` is `817`. -/
theorem roundToDouble_816_zoom :
    roundToDouble (816 + 1) = 817 := by
  apply roundToDouble_eq_of_pos _ _ (9) (7186407999143936) <;> norm_num [abs_lt]

/-- In doubles `600 / 1` is `600`. -/
theorem roundToDouble_600_div_1 :
    roundToDouble (((600 : Int) : ℚ) / 1) = 600 := by
  apply roundToDouble_eq_of_pos _ _ (9) (5277655813324800) <;> norm_num [abs_lt]

/-- In doubles `600 + 16` is `616`. -/
theorem roundToDouble_600_bar :
    roundToDouble (600 + ((16 : Int) : ℚ)) = 616 := by
  apply roundToDouble_eq_of_pos _ _ (9) (5418393301680128) <;> norm_num [abs_lt]

/-- In doubles `616 + 1` is `617`. -/
theorem roundToDouble_616_zoom :
    roundToDouble (616 + 1) = 617 := by
  apply roundToDouble_eq_of_pos _ _ (9) (5427189394702336) <;> norm_num [abs_lt]

/-- In doubles `800 / 1.5` is `533.3333333333334`. -/
theorem roundToDouble_800_div_3_2 :
    roundToDouble (((800 : Int) : ℚ) / (3 / 2)) = 4691249611844267 / 8796093022208 := by
  apply roundToDouble_eq_of_pos _ _ (9) (4691249611844267) <;> norm_num [abs_lt]

/-- In doubles `533.3333333333334 + 16` is `549.3333333333334`. -/
theorem roundToDouble_533_bar :
    roundToDouble (4691249611844267 / 8796093022208 + ((16 : Int) : ℚ)) = 4831987100199595 / 8796093022208 := by
  apply roundToDouble_eq_of_pos _ _ (9) (4831987100199595) <;> norm_num [abs_lt]

/-- In doubles `549.3333333333334 + 1.5` is `550.8333333333334`. -/
theorem roundToDouble_549_zoom :
    roundToDouble (4831987100199595 / 8796093022208 + 3 / 2) = 4845181239732907 / 8796093022208 := by
  apply roundToDouble_eq_of_pos _ _ (9) (4845181239732907) <;> norm_num [abs_lt]

/-- In doubles `600 / 1.5` is `400`. -/
theorem roundToDouble_600_div_3_2 :
    roundToDouble (((600 : Int) : ℚ) / (3 / 2)) = 400 := by
  apply roundToDouble_eq_of_pos _ _ (8) (7036874417766400) <;> norm_num [abs_lt]

/-- In doubles `400 + 16` is `416`. -/
theorem roundToDouble_400_bar :
    roundToDouble (400 + ((16 : Int) : ℚ)) = 416 := by
  apply roundToDouble_eq_of_pos _ _ (8) (7318349394477056) <;> norm_num [abs_lt]

/-- In doubles `416 + 1.5` is `417.5`. -/
theorem roundToDouble_416_zoom :
    roundToDouble (416 + 3 / 2) = 835 / 2 := by
  apply roundToDouble_eq_of_pos _ _ (8) (7344737673543680) <;> norm_num [abs_lt]

/-- In doubles `1 / 1.9` is `0.5263157894736842`. -/
theorem roundToDouble_inv_nine_up :
    roundToDouble (1 / (4278419646001971 / 2251799813685248)) = 4740631186705785 / 9007199254740992 := by
  apply roundToDouble_eq_of_pos _ _ (-1) (4740631186705785) <;> norm_num [abs_lt]

/-- In doubles `1.9 * 0.5263157894736842` is `0.9999999999999999`. -/
theorem roundToDouble_nine_up_product :
    roundToDouble (4278419646001971 / 2251799813685248 * (4740631186705785 / 9007199254740992)) = 9007199254740991 / 9007199254740992 := by
  apply roundToDouble_eq_of_pos _ _ (-1) (9007199254740991) <;> norm_num [abs_lt]

/-- In doubles `1 / 1.2` is `0.8333333333333334`. -/
theorem roundToDouble_inv_two_up :
    roundToDouble (1 / (5404319552844595 / 4503599627370496)) = 7505999378950827 / 9007199254740992 := by
  apply roundToDouble_eq_of_pos _ _ (-1) (7505999378950827) <;> norm_num [abs_lt]

/-! ## The nested slot calls end: `setValue` is total with fuel 4 -/

theorem QAbstractSlider.setValue_succ (fuel : Nat) (st : ScalableWrapper) (x : Bar)
    (value : Int) :
    QAbstractSlider.setValue (fuel + 1) st x value =
      if (st.bar x).value = (st.bar x).bound value then some st
      else
        (st.connections.filter (fun l => l.sender = x)).foldlM
          (fun s l => QAbstractSlider.setValue fuel s l.receiver ((st.bar x).bound value))
          (st.setValueOf x ((st.bar x).bound value)) := rfl

/-- A request for the value the bar already has (after clamping) changes nothing and emits
nothing. -/
theorem QAbstractSlider.setValue_noop (fuel : Nat) (st : ScalableWrapper) (x : Bar) (v : Int)
    (h : (st.bar x).value = (st.bar x).bound v) :
    QAbstractSlider.setValue (fuel + 1) st x v = some st := by
  rw [QAbstractSlider.setValue_succ, if_pos h]

/-- With no connection on the bar, `setValue` stores the clamped value and nothing else
changes. -/
theorem QAbstractSlider.setValue_unconnected (fuel : Nat) (st : ScalableWrapper) (x : Bar)
    (v : Int) (h : st.connections.filter (fun l => l.sender = x) = []) :
    QAbstractSlider.setValue (fuel + 1) st x v = some (st.setValueOf x ((st.bar x).bound v)) := by
  rw [QAbstractSlider.setValue_succ]
  split
  · next hv => rw [← hv, st.setValueOf_same]
  · rw [h]; rfl

/-- Emission to receivers on which the slot call changes nothing leaves the state as it
is. -/
theorem QAbstractSlider.emit_stay (fuel : Nat) (x : Bar) (v : Int) (s2 : ScalableWrapper)
    (h2 : QAbstractSlider.setValue fuel s2 x.partner v = some s2) (conns : List Link) :
    (conns.filter (fun l => l.sender = x)).foldlM
      (fun s l => QAbstractSlider.setValue fuel s l.receiver v) s2 = some s2 := by
  induction conns with
  | nil => rfl
  | cons l ls ih =>
    by_cases hl : l.sender = x
    · rw [List.filter_cons_of_pos (by simpa using hl), List.foldlM_cons]
      rw [l.receiver_eq, hl, h2]
      exact ih
    · rw [List.filter_cons_of_neg (by simpa using hl)]
      exact ih

/-- Emission whose first slot call leads to a state on which further calls change nothing:
the result is that state, or the start when the bar has no connection. -/
theorem QAbstractSlider.emit_cases (fuel : Nat) (x : Bar) (v : Int) (s1 s2 : ScalableWrapper)
    (h1 : QAbstractSlider.setValue fuel s1 x.partner v = some s2)
    (h2 : QAbstractSlider.setValue fuel s2 x.partner v = some s2) (conns : List Link) :
    ∃ r, (conns.filter (fun l => l.sender = x)).foldlM
      (fun s l => QAbstractSlider.setValue fuel s l.receiver v) s1 = some r ∧
      (r = s1 ∨ r = s2) := by
  induction conns with
  | nil => exact ⟨s1, rfl, Or.inl rfl⟩
  | cons l ls ih =>
    by_cases hl : l.sender = x
    · refine ⟨s2, ?_, Or.inr rfl⟩
      rw [List.filter_cons_of_pos (by simpa using hl), List.foldlM_cons]
      rw [l.receiver_eq, hl, h1]
      exact QAbstractSlider.emit_stay fuel x v s2 h2 ls
    · rw [List.filter_cons_of_neg (by simpa using hl)]
      exact ih

/-- Third level of nesting: the partner already holds the value the emission will ask it
to take, so the call stores the clamped value and ends. -/
theorem QAbstractSlider.setValue_level3 (fuel : Nat) (st : ScalableWrapper) (x : Bar) (u : Int)
    (h : (st.bar x.partner).value = (st.bar x.partner).bound ((st.bar x).bound u)) :
    QAbstractSlider.setValue (fuel + 2) st x u =
      some (st.setValueOf x ((st.bar x).bound u)) := by
  rw [QAbstractSlider.setValue_succ]
  split
  · next hv => rw [← hv, st.setValueOf_same]
  · apply QAbstractSlider.emit_stay
    apply QAbstractSlider.setValue_noop
    simpa using h

/-- Second level of nesting: the request `u` is the value the partner has just taken. -/
theorem QAbstractSlider.setValue_level2 (fuel : Nat) (st : ScalableWrapper) (x : Bar) (u : Int)
    (hu : (st.bar x.partner).bound u = u) (hv : (st.bar x.partner).value = u) :
    ∃ vy, QAbstractSlider.setValue (fuel + 3) st x u =
        some ((st.setValueOf x ((st.bar x).bound u)).setValueOf x.partner vy) ∧
      (vy = u ∨ vy = (st.bar x.partner).bound ((st.bar x).bound u)) := by
  rw [QAbstractSlider.setValue_succ]
  split
  · next hx =>
    refine ⟨u, ?_, Or.inl rfl⟩
    rw [← hx, st.setValueOf_same, ← hv, st.setValueOf_same]
  · have h1 : QAbstractSlider.setValue (fuel + 2) (st.setValueOf x ((st.bar x).bound u))
        x.partner ((st.bar x).bound u) =
        some ((st.setValueOf x ((st.bar x).bound u)).setValueOf x.partner
          ((st.bar x.partner).bound ((st.bar x).bound u))) := by
      have := QAbstractSlider.setValue_level3 fuel (st.setValueOf x ((st.bar x).bound u))
        x.partner ((st.bar x).bound u)
      simp only [Bar.partner_partner, ScalableWrapper.setValueOf_bar_same,
        ScalableWrapper.setValueOf_bar_partner, QScrollBar.bound_with_value] at this
      exact this ((st.bar x).bound_bound_bound (st.bar x.partner) u hu).symm
    have h2 : QAbstractSlider.setValue (fuel + 2)
        ((st.setValueOf x ((st.bar x).bound u)).setValueOf x.partner
          ((st.bar x.partner).bound ((st.bar x).bound u)))
        x.partner ((st.bar x).bound u) =
        some ((st.setValueOf x ((st.bar x).bound u)).setValueOf x.partner
          ((st.bar x.partner).bound ((st.bar x).bound u))) := by
      apply QAbstractSlider.setValue_noop
      simp
    obtain ⟨r, hr, hcase⟩ := QAbstractSlider.emit_cases (fuel + 2) x ((st.bar x).bound u) _ _
      h1 h2 st.connections
    rcases hcase with rfl | rfl
    · refine ⟨u, ?_, Or.inl rfl⟩
      rw [hr]
      have e := (st.setValueOf x ((st.bar x).bound u)).setValueOf_same x.partner
      simp only [ScalableWrapper.setValueOf_bar_partner, hv] at e
      rw [e]
    · exact ⟨_, hr, Or.inr rfl⟩

/-- First level: any request on any bar in any state. The call returns; the state differs
from the start only in the value of the bar and of its partner; the bar ends on the
clamped request, or on that value clamped to the partner's range and back. -/
theorem QAbstractSlider.setValue_level1 (fuel : Nat) (st : ScalableWrapper) (x : Bar) (v : Int) :
    ∃ vx vy, QAbstractSlider.setValue (fuel + 4) st x v =
        some ((st.setValueOf x vx).setValueOf x.partner vy) ∧
      (vx = (st.bar x).bound v ∨
        vx = (st.bar x).bound ((st.bar x.partner).bound ((st.bar x).bound v))) ∧
      (vy = (st.bar x.partner).value ∨ vy = (st.bar x.partner).bound ((st.bar x).bound v)) ∧
      ((st.bar x).value = (st.bar x).bound v →
        vx = (st.bar x).value ∧ vy = (st.bar x.partner).value) := by
  rw [QAbstractSlider.setValue_succ]
  split
  · next hx =>
    refine ⟨(st.bar x).value, (st.bar x.partner).value, ?_, Or.inl hx, Or.inl rfl,
      fun _ => ⟨rfl, rfl⟩⟩
    rw [st.setValueOf_same, st.setValueOf_same]
  · next hx =>
    obtain ⟨vx, h1, hvx⟩ := QAbstractSlider.setValue_level2 fuel
      (st.setValueOf x ((st.bar x).bound v)) x.partner ((st.bar x).bound v)
      (by simp [Bar.partner_partner, QScrollBar.bound_idem]) (by simp [Bar.partner_partner])
    simp only [Bar.partner_partner, ScalableWrapper.setValueOf_bar_same,
      ScalableWrapper.setValueOf_bar_partner, QScrollBar.bound_with_value] at h1 hvx
    have h2 : QAbstractSlider.setValue (fuel + 3)
        (((st.setValueOf x ((st.bar x).bound v)).setValueOf x.partner
          ((st.bar x.partner).bound ((st.bar x).bound v))).setValueOf x vx)
        x.partner ((st.bar x).bound v) =
        some (((st.setValueOf x ((st.bar x).bound v)).setValueOf x.partner
          ((st.bar x.partner).bound ((st.bar x).bound v))).setValueOf x vx) := by
      apply QAbstractSlider.setValue_noop
      simp
    obtain ⟨r, hr, hcase⟩ := QAbstractSlider.emit_cases (fuel + 3) x ((st.bar x).bound v) _ _
      h1 h2 st.connections
    rcases hcase with rfl | rfl
    · refine ⟨(st.bar x).bound v, (st.bar x.partner).value, ?_, Or.inl rfl, Or.inl rfl,
        fun h => absurd h hx⟩
      rw [hr]
      have e := (st.setValueOf x ((st.bar x).bound v)).setValueOf_same x.partner
      simp only [ScalableWrapper.setValueOf_bar_partner] at e
      rw [e]
    · refine ⟨vx, (st.bar x.partner).bound ((st.bar x).bound v), ?_, hvx, Or.inr rfl,
        fun h => absurd h hx⟩
      rw [hr, ScalableWrapper.setValueOf_comm _ _ _ x.partner_ne,
        ScalableWrapper.setValueOf_setValueOf]

/-- Totality of the slot calls: with fuel at least 4, `setValue` returns on every state, bar
and request, and only the values of the bar and of its partner can differ afterwards. -/
theorem QAbstractSlider.setValue_total (fuel : Nat) (hfuel : 4 ≤ fuel) (st : ScalableWrapper)
    (x : Bar) (v : Int) :
    ∃ vx vy, QAbstractSlider.setValue fuel st x v =
        some ((st.setValueOf x vx).setValueOf x.partner vy) ∧
      (vx = (st.bar x).bound v ∨
        vx = (st.bar x).bound ((st.bar x.partner).bound ((st.bar x).bound v))) ∧
      (vy = (st.bar x.partner).value ∨ vy = (st.bar x.partner).bound ((st.bar x).bound v)) ∧
      ((st.bar x).value = (st.bar x).bound v →
        vx = (st.bar x).value ∧ vy = (st.bar x.partner).value) := by
  obtain ⟨k, rfl⟩ := Nat.exists_eq_add_of_le hfuel
  rw [Nat.add_comm]
  exact QAbstractSlider.setValue_level1 k st x v

/-- The form of `setValue_unconnected` for any fuel that is not zero. -/
theorem QAbstractSlider.setValue_unconnected_of_pos (fuel : Nat) (hfuel : 1 ≤ fuel)
    (st : ScalableWrapper) (x : Bar) (v : Int) (h : st.connections = []) :
    QAbstractSlider.setValue fuel st x v = some (st.setValueOf x ((st.bar x).bound v)) := by
  obtain ⟨k, rfl⟩ := Nat.exists_eq_add_of_le hfuel
  rw [Nat.add_comm]
  exact QAbstractSlider.setValue_unconnected k st x v (by rw [h]; rfl)

/-! ## `setMaximum` -/

theorem ScalableWrapper.setBar_setValueOf (st : ScalableWrapper) (x : Bar) (b : QScrollBar)
    (w : Int) : (st.setBar x b).setValueOf x w = st.setBar x { b with value := w } := by
  simp [ScalableWrapper.setValueOf]

/-- Totality of `setMaximum`: the bar gets the new range, only the values of the bar and of
its partner can differ otherwise, and when the bar was well formed and the new maximum is
the maximum of the partner, the value of the bar becomes the old value capped at the new
maximum. -/
theorem QAbstractSlider.setMaximum_total (fuel : Nat) (hfuel : 4 ≤ fuel) (st : ScalableWrapper)
    (x : Bar) (m : Int) :
    ∃ vx vy, QAbstractSlider.setMaximum fuel st x m =
        some ((st.setBar x { st.bar x with
                minimum := min (st.bar x).minimum m, maximum := m, value := vx }).setValueOf
              x.partner vy) ∧
      ((st.bar x).WellFormed → m = (st.bar x.partner).maximum →
        vx = min (st.bar x).value m) ∧
      ((st.bar x).WellFormed → min (st.bar x).minimum m ≤ vx ∧ vx ≤ m) := by
  have hmax : max (min (st.bar x).minimum m) m = m := max_eq_right (min_le_right _ _)
  unfold QAbstractSlider.setMaximum QAbstractSlider.setRange
  simp only [hmax]
  split
  · next hchg =>
    obtain ⟨vx, vy, h, hvx, -, hnoop⟩ := QAbstractSlider.setValue_total fuel hfuel
      (st.setBar x { st.bar x with minimum := min (st.bar x).minimum m, maximum := m })
      x (st.bar x).value
    refine ⟨vx, vy, ?_, ?_, ?_⟩
    · rw [h, ScalableWrapper.setBar_setValueOf]
    · intro hwf hm
      simp only [ScalableWrapper.bar_setBar_same, ScalableWrapper.bar_setBar_partner,
        QScrollBar.bound] at hvx hnoop
      unfold QScrollBar.WellFormed at hwf
      omega
    · intro hwf
      simp only [ScalableWrapper.bar_setBar_same, ScalableWrapper.bar_setBar_partner,
        QScrollBar.bound] at hvx hnoop
      unfold QScrollBar.WellFormed at hwf
      omega
  · next hchg =>
    refine ⟨(st.bar x).value, (st.bar x.partner).value, ?_, ?_, ?_⟩
    · have e := (st.setBar x { st.bar x with
        minimum := min (st.bar x).minimum m, maximum := m }).setValueOf_same x.partner
      simp only [ScalableWrapper.bar_setBar_partner] at e
      rw [e]
    · intro hwf _
      unfold QScrollBar.WellFormed at hwf
      omega
    · intro hwf
      unfold QScrollBar.WellFormed at hwf
      omega

/-! ## `setupScrollingSynchronization` -/

theorem ScalableWrapper.setupScrollingSynchronization_true (st : ScalableWrapper) :
    st.setupScrollingSynchronization true =
      { st with connections := st.connections ++ syncConnections } := by
  simp [ScalableWrapper.setupScrollingSynchronization, ScalableWrapper.connect,
    syncConnections]

theorem ScalableWrapper.setupScrollingSynchronization_false (st : ScalableWrapper) :
    st.setupScrollingSynchronization false = { st with connections := [] } := by
  simp only [ScalableWrapper.setupScrollingSynchronization, ScalableWrapper.disconnect]
  simp only [List.filter_filter, Bool.false_eq_true, if_false]
  congr 1
  rw [List.filter_eq_nil_iff]
  intro k _
  cases k <;> simp

/-! ## `updateTextEditSize` and `paintEvent` -/

/-- Totality and effect of `updateTextEditSize`: the proxy size and the rectangle are set,
both wrapper bars get the range ending at the editor's maximum, and the only other fields
that can differ are the values of the four bars. -/
theorem ScalableWrapper.updateTextEditSize_total (fuel : Nat) (hfuel : 4 ≤ fuel)
    (st : ScalableWrapper) :
    ∃ hv vv ehv evv, st.updateTextEditSize fuel = some
        { st with
          editorProxySize := editorSizeFor st
          m_rect := (0, 0, st.editorHorizontalScrollBar.maximum,
            st.editorVerticalScrollBar.maximum)
          horizontalScrollBar := { st.horizontalScrollBar with
            minimum := min st.horizontalScrollBar.minimum st.editorHorizontalScrollBar.maximum
            maximum := st.editorHorizontalScrollBar.maximum
            value := hv }
          verticalScrollBar := { st.verticalScrollBar with
            minimum := min st.verticalScrollBar.minimum st.editorVerticalScrollBar.maximum
            maximum := st.editorVerticalScrollBar.maximum
            value := vv }
          editorHorizontalScrollBar := { st.editorHorizontalScrollBar with value := ehv }
          editorVerticalScrollBar := { st.editorVerticalScrollBar with value := evv } } ∧
      (st.horizontalScrollBar.WellFormed →
        hv = min st.horizontalScrollBar.value st.editorHorizontalScrollBar.maximum) ∧
      (st.verticalScrollBar.WellFormed →
        vv = min st.verticalScrollBar.value st.editorVerticalScrollBar.maximum) := by
  unfold ScalableWrapper.updateTextEditSize
  obtain ⟨hv, ehv, h1, hhv, -⟩ := QAbstractSlider.setMaximum_total fuel hfuel
    { st with
      editorProxySize := editorSizeFor st
      m_rect := (0, 0, st.editorHorizontalScrollBar.maximum,
        st.editorVerticalScrollBar.maximum) }
    .wrapperHorizontal st.editorHorizontalScrollBar.maximum
  simp only [editorSizeFor] at h1
  simp only [h1, Option.some_bind]
  obtain ⟨vv, evv, h2, hvv, -⟩ := QAbstractSlider.setMaximum_total fuel hfuel
    (({ st with
      editorProxySize := editorSizeFor st
      m_rect := (0, 0, st.editorHorizontalScrollBar.maximum,
        st.editorVerticalScrollBar.maximum) } : ScalableWrapper).setBar .wrapperHorizontal
        { st.horizontalScrollBar with
          minimum := min st.horizontalScrollBar.minimum st.editorHorizontalScrollBar.maximum
          maximum := st.editorHorizontalScrollBar.maximum
          value := hv } |>.setValueOf Bar.wrapperHorizontal.partner ehv)
    .wrapperVertical st.editorVerticalScrollBar.maximum
  simp only [editorSizeFor, ScalableWrapper.bar, ScalableWrapper.setBar,
    ScalableWrapper.setValueOf, Bar.partner] at h2 hvv hhv ⊢
  exact ⟨hv, vv, ehv, evv, h2, fun h => hhv h trivial, fun h => hvv h trivial⟩

/-- The steps of `paintEvent` after `updateTextEditSize`, one by one: the connections are
removed, the two resets and the two restores each store a clamped value on a wrapper bar
and touch nothing else, and the connections are made again. -/
theorem ScalableWrapper.paintEvent_chain (fuel : Nat) (hfuel : 1 ≤ fuel)
    (st s1 : ScalableWrapper) (h : st.updateTextEditSize fuel = some s1) :
    ∃ s2 s3 s4 s6 s7 : ScalableWrapper,
      s2 = s1.setupScrollingSynchronization false ∧
      s2 = { s1 with connections := [] } ∧
      QAbstractSlider.setValue fuel s2 .wrapperVertical 0 = some s3 ∧
      s3 = s2.setValueOf .wrapperVertical (s2.verticalScrollBar.bound 0) ∧
      QAbstractSlider.setValue fuel s3 .wrapperHorizontal 0 = some s4 ∧
      s4 = s3.setValueOf .wrapperHorizontal (s3.horizontalScrollBar.bound 0) ∧
      QAbstractSlider.setValue fuel (QGraphicsView.paintEvent s4) .wrapperVertical
        s2.verticalScrollBar.value = some s6 ∧
      s6 = s4.setValueOf .wrapperVertical (s4.verticalScrollBar.bound s2.verticalScrollBar.value) ∧
      QAbstractSlider.setValue fuel s6 .wrapperHorizontal s2.horizontalScrollBar.value = some s7 ∧
      s7 = s6.setValueOf .wrapperHorizontal
        (s6.horizontalScrollBar.bound s2.horizontalScrollBar.value) ∧
      st.paintEvent fuel = some (s7.setupScrollingSynchronization true) := by
  have e2 := s1.setupScrollingSynchronization_false
  have e3 := QAbstractSlider.setValue_unconnected_of_pos fuel hfuel
    { s1 with connections := [] } .wrapperVertical 0 rfl
  have e4 := QAbstractSlider.setValue_unconnected_of_pos fuel hfuel
    (({ s1 with connections := [] } : ScalableWrapper).setValueOf .wrapperVertical
      (s1.verticalScrollBar.bound 0)) .wrapperHorizontal 0 rfl
  have e6 := QAbstractSlider.setValue_unconnected_of_pos fuel hfuel
    ((({ s1 with connections := [] } : ScalableWrapper).setValueOf .wrapperVertical
      (s1.verticalScrollBar.bound 0)).setValueOf .wrapperHorizontal
      (s1.horizontalScrollBar.bound 0)) .wrapperVertical s1.verticalScrollBar.value rfl
  have e7 := QAbstractSlider.setValue_unconnected_of_pos fuel hfuel
    (((({ s1 with connections := [] } : ScalableWrapper).setValueOf .wrapperVertical
      (s1.verticalScrollBar.bound 0)).setValueOf .wrapperHorizontal
      (s1.horizontalScrollBar.bound 0)).setValueOf .wrapperVertical
      (s1.verticalScrollBar.bound s1.verticalScrollBar.value))
      .wrapperHorizontal s1.horizontalScrollBar.value rfl
  refine ⟨_, _, _, _, _, rfl, e2, ?_, rfl, ?_, rfl, ?_, rfl, ?_, rfl, ?_⟩
  · rw [e2]; exact e3
  · rw [e2]; exact e4
  · rw [e2]; exact e6
  · rw [e2]; exact e7
  · unfold ScalableWrapper.paintEvent
    simp only [h, Option.some_bind]
    rw [e2]
    simp only [ScalableWrapper.bar] at e3 e4 e6 e7
    simp only [e3, Option.some_bind]
    erw [e4]
    simp only [Option.some_bind, QGraphicsView.paintEvent]
    erw [e6]
    simp only [Option.some_bind]
    erw [e7]
    rfl

/-- The result of `paintEvent` in terms of the state left by `updateTextEditSize`. -/
theorem ScalableWrapper.paintEvent_eq (fuel : Nat) (hfuel : 1 ≤ fuel)
    (st s1 : ScalableWrapper) (h : st.updateTextEditSize fuel = some s1) :
    st.paintEvent fuel = some
      { s1 with
        connections := syncConnections
        verticalScrollBar := { s1.verticalScrollBar with
          value := s1.verticalScrollBar.bound s1.verticalScrollBar.value }
        horizontalScrollBar := { s1.horizontalScrollBar with
          value := s1.horizontalScrollBar.bound s1.horizontalScrollBar.value } } := by
  obtain ⟨s2, s3, s4, s6, s7, -, e2, -, e3, -, e4, -, e6, -, e7, hp⟩ :=
    ScalableWrapper.paintEvent_chain fuel hfuel st s1 h
  rw [hp, e7, e6, e4, e3, e2, ScalableWrapper.setupScrollingSynchronization_true]
  simp [ScalableWrapper.setValueOf, ScalableWrapper.setBar, ScalableWrapper.bar]

/-- Totality and effect of `paintEvent`: it returns with fuel 4; the proxy size, the
rectangle and the ranges of the wrapper bars are those set by `updateTextEditSize`; the
connections are exactly the four of the constructor; the only other fields that can
differ are the values of the four bars. -/
theorem ScalableWrapper.paintEvent_total (fuel : Nat) (hfuel : 4 ≤ fuel)
    (st : ScalableWrapper) :
    ∃ hv vv ehv evv, st.paintEvent fuel = some
        { st with
          connections := syncConnections
          editorProxySize := editorSizeFor st
          m_rect := (0, 0, st.editorHorizontalScrollBar.maximum,
            st.editorVerticalScrollBar.maximum)
          horizontalScrollBar := { st.horizontalScrollBar with
            minimum := min st.horizontalScrollBar.minimum st.editorHorizontalScrollBar.maximum
            maximum := st.editorHorizontalScrollBar.maximum
            value := hv }
          verticalScrollBar := { st.verticalScrollBar with
            minimum := min st.verticalScrollBar.minimum st.editorVerticalScrollBar.maximum
            maximum := st.editorVerticalScrollBar.maximum
            value := vv }
          editorHorizontalScrollBar := { st.editorHorizontalScrollBar with value := ehv }
          editorVerticalScrollBar := { st.editorVerticalScrollBar with value := evv } } ∧
      (st.horizontalScrollBar.WellFormed →
        hv = min st.horizontalScrollBar.value st.editorHorizontalScrollBar.maximum) ∧
      (st.verticalScrollBar.WellFormed →
        vv = min st.verticalScrollBar.value st.editorVerticalScrollBar.maximum) := by
  obtain ⟨hv, vv, ehv, evv, h1, hhv, hvv⟩ := st.updateTextEditSize_total fuel hfuel
  have hp := ScalableWrapper.paintEvent_eq fuel (by omega) st _ h1
  refine ⟨_, _, ehv, evv, hp, ?_, ?_⟩
  · intro hwf
    have := hhv hwf
    unfold QScrollBar.WellFormed at hwf
    simp only [QScrollBar.bound]
    omega
  · intro hwf
    have := hvv hwf
    unfold QScrollBar.WellFormed at hwf
    simp only [QScrollBar.bound]
    omega

/-! ## The zoom factor is touched by the zoom gesture only -/

theorem List.foldlM_option_invariant {σ α : Type} (P : σ → Prop) (f : σ → α → Option σ)
    (hf : ∀ s l r, f s l = some r → P s → P r) :
    ∀ (L : List α) (s r : σ), L.foldlM f s = some r → P s → P r := by
  intro L
  induction L with
  | nil =>
    intro s r h hs
    simp only [List.foldlM_nil] at h
    cases h
    exact hs
  | cons l ls ih =>
    intro s r h hs
    rw [List.foldlM_cons] at h
    cases hfs : f s l with
    | none => rw [hfs] at h; cases h
    | some s1 =>
      rw [hfs] at h
      exact ih s1 r h (hf s l s1 hfs hs)

/-- Whatever the fuel, a `setValue` that returns has left the zoom factor alone. -/
theorem QAbstractSlider.setValue_zoom (z : ℚ) :
    ∀ (fuel : Nat) (st : ScalableWrapper) (x : Bar) (v : Int) (r : ScalableWrapper),
      QAbstractSlider.setValue fuel st x v = some r → st.m_zoomRange = z → r.m_zoomRange = z := by
  intro fuel
  induction fuel with
  | zero => intro st x v r h; cases h
  | succ n ih =>
    intro st x v r h hz
    rw [QAbstractSlider.setValue_succ] at h
    split at h
    · cases h; exact hz
    · exact List.foldlM_option_invariant (fun s => s.m_zoomRange = z) _
        (fun s l r hs hP => ih s l.receiver _ r hs hP) _ _ r h (by simpa using hz)

theorem QAbstractSlider.setMaximum_zoom (z : ℚ) (fuel : Nat) (st : ScalableWrapper) (x : Bar)
    (m : Int) (r : ScalableWrapper) (h : QAbstractSlider.setMaximum fuel st x m = some r)
    (hz : st.m_zoomRange = z) : r.m_zoomRange = z := by
  unfold QAbstractSlider.setMaximum QAbstractSlider.setRange at h
  dsimp only at h
  split at h
  · exact QAbstractSlider.setValue_zoom z fuel _ x _ r h (by simpa using hz)
  · cases h; simpa using hz

theorem ScalableWrapper.updateTextEditSize_zoom (fuel : Nat) (st r : ScalableWrapper)
    (h : st.updateTextEditSize fuel = some r) : r.m_zoomRange = st.m_zoomRange := by
  unfold ScalableWrapper.updateTextEditSize at h
  simp only [Option.bind_eq_some] at h
  obtain ⟨s1, h1, h2⟩ := h
  exact QAbstractSlider.setMaximum_zoom _ fuel s1 _ _ r h2
    (QAbstractSlider.setMaximum_zoom _ fuel _ _ _ s1 h1 rfl)

theorem ScalableWrapper.paintEvent_zoom (fuel : Nat) (st r : ScalableWrapper)
    (h : st.paintEvent fuel = some r) : r.m_zoomRange = st.m_zoomRange := by
  cases hu : st.updateTextEditSize fuel with
  | none => simp [ScalableWrapper.paintEvent, hu] at h
  | some s1 =>
    have hf : 1 ≤ fuel := by
      cases fuel with
      | zero =>
        simp [ScalableWrapper.updateTextEditSize, QAbstractSlider.setMaximum,
          QAbstractSlider.setRange, QAbstractSlider.setValue] at hu
        simp [ScalableWrapper.paintEvent, ScalableWrapper.updateTextEditSize,
          QAbstractSlider.setMaximum, QAbstractSlider.setRange, QAbstractSlider.setValue,
          hu] at h
      | succ n => omega
    rw [ScalableWrapper.paintEvent_eq fuel hf st s1 hu] at h
    cases h
    exact ScalableWrapper.updateTextEditSize_zoom fuel st s1 hu

/-! ## `wheelEvent`, branch by branch -/

/-- The zoom branch: Control held and vertical orientation. The notch count is divided by
ten and added to the zoom factor, both in double arithmetic, and the sum is clamped. -/
theorem ScalableWrapper.wheelEvent_zoom (fuel : Nat) (st : ScalableWrapper) (ev : QWheelEvent)
    (hc : ev.modifiers &&& Qt.ControlModifier ≠ 0)
    (hv : ev.orientation = Qt.Orientation.Vertical) :
    st.wheelEvent fuel ev = some
      ({ st with
          m_zoomRange := max (1 / 2) (roundToDouble (st.m_zoomRange
            + roundToDouble ((Int.tdiv ev.angleDelta.y 120 : ℚ) / 10)))
          editorProxyScale := max (1 / 2) (roundToDouble (st.m_zoomRange
            + roundToDouble ((Int.tdiv ev.angleDelta.y 120 : ℚ) / 10))) },
        true) := by
  unfold ScalableWrapper.wheelEvent ScalableWrapper.scaleTextEdit
  simp only [hc, hv, ne_eq, not_false_eq_true, if_true]
  by_cases hlt : roundToDouble (st.m_zoomRange
      + roundToDouble ((Int.tdiv ev.angleDelta.y 120 : ℚ) / 10)) < 1 / 2
  · simp only [hlt, if_true, max_eq_left (le_of_lt hlt)]
  · simp only [hlt, if_false, max_eq_right (not_lt.mp hlt)]

/-- The zoom branch on known values: `k` notches, the step `k / 10` rounds to `step`, the
sum rounds to `b`, and `b` is not below the minimum. -/
theorem ScalableWrapper.wheelEvent_zoom_to (fuel : Nat) (st : ScalableWrapper)
    (ev : QWheelEvent) (hc : ev.modifiers &&& Qt.ControlModifier ≠ 0)
    (hv : ev.orientation = Qt.Orientation.Vertical) (k : Int) (step b : ℚ)
    (hk : Int.tdiv ev.angleDelta.y 120 = k) (hstep : roundToDouble ((k : ℚ) / 10) = step)
    (hsum : roundToDouble (st.m_zoomRange + step) = b) (hb : 1 / 2 ≤ b) :
    st.wheelEvent fuel ev = some (st.zoomedTo b, true) := by
  rw [st.wheelEvent_zoom fuel ev hc hv, hk, hstep, hsum, max_eq_right hb]
  rfl

/-- The zoom branch on known values when the sum falls below the minimum: the zoom factor
is set to the minimum. -/
theorem ScalableWrapper.wheelEvent_zoom_clamped (fuel : Nat) (st : ScalableWrapper)
    (ev : QWheelEvent) (hc : ev.modifiers &&& Qt.ControlModifier ≠ 0)
    (hv : ev.orientation = Qt.Orientation.Vertical) (k : Int) (step b : ℚ)
    (hk : Int.tdiv ev.angleDelta.y 120 = k) (hstep : roundToDouble ((k : ℚ) / 10) = step)
    (hsum : roundToDouble (st.m_zoomRange + step) = b) (hb : b < 1 / 2) :
    st.wheelEvent fuel ev = some (st.zoomedTo (1 / 2), true) := by
  rw [st.wheelEvent_zoom fuel ev hc hv, hk, hstep, hsum, max_eq_left (le_of_lt hb)]
  rfl

/-- Control held and horizontal orientation: neither branch of the source runs. -/
theorem ScalableWrapper.wheelEvent_control_horizontal (fuel : Nat) (st : ScalableWrapper)
    (ev : QWheelEvent) (hc : ev.modifiers &&& Qt.ControlModifier ≠ 0)
    (hh : ev.orientation = Qt.Orientation.Horizontal) :
    st.wheelEvent fuel ev = some (st, ev.accepted) := by
  unfold ScalableWrapper.wheelEvent
  simp [hc, hh]

/-- No Control, vertical orientation: one `setValue` on the wrapper's vertical bar. -/
theorem ScalableWrapper.wheelEvent_scroll_vertical (fuel : Nat) (st : ScalableWrapper)
    (ev : QWheelEvent) (hc : ¬ ev.modifiers &&& Qt.ControlModifier ≠ 0)
    (hv : ev.orientation = Qt.Orientation.Vertical) :
    st.wheelEvent fuel ev =
      (QAbstractSlider.setValue fuel st .wrapperVertical
        (st.verticalScrollBar.value
          - Int.tdiv ev.angleDelta.y 120 * st.verticalScrollBar.singleStep)).map
        fun s => (s, ev.accepted) := by
  unfold ScalableWrapper.wheelEvent
  simp only [hc, if_false, hv]

/-- No Control, horizontal orientation: one `setValue` on the wrapper's horizontal bar. -/
theorem ScalableWrapper.wheelEvent_scroll_horizontal (fuel : Nat) (st : ScalableWrapper)
    (ev : QWheelEvent) (hc : ¬ ev.modifiers &&& Qt.ControlModifier ≠ 0)
    (hh : ev.orientation = Qt.Orientation.Horizontal) :
    st.wheelEvent fuel ev =
      (QAbstractSlider.setValue fuel st .wrapperHorizontal
        (st.horizontalScrollBar.value
          - Int.tdiv ev.angleDelta.y 120 * st.horizontalScrollBar.singleStep)).map
        fun s => (s, ev.accepted) := by
  unfold ScalableWrapper.wheelEvent
  simp only [hc, if_false, hh]

/-- A wheel event that returns keeps the zoom factor at or above one half. -/
theorem ScalableWrapper.wheelEvent_zoom_ge (fuel : Nat) (st : ScalableWrapper)
    (ev : QWheelEvent) (r : ScalableWrapper × Bool) (h : st.wheelEvent fuel ev = some r)
    (hz : 1 / 2 ≤ st.m_zoomRange) : 1 / 2 ≤ r.1.m_zoomRange := by
  by_cases hc : ev.modifiers &&& Qt.ControlModifier ≠ 0
  · cases ho : ev.orientation with
    | Vertical =>
      rw [st.wheelEvent_zoom fuel ev hc ho] at h
      cases h
      exact le_max_left _ _
    | Horizontal =>
      rw [st.wheelEvent_control_horizontal fuel ev hc ho] at h
      cases h
      exact hz
  · cases ho : ev.orientation with
    | Vertical =>
      rw [st.wheelEvent_scroll_vertical fuel ev hc ho, Option.map_eq_some'] at h
      obtain ⟨s, hs, rfl⟩ := h
      rw [QAbstractSlider.setValue_zoom _ fuel st _ _ s hs rfl]
      exact hz
    | Horizontal =>
      rw [st.wheelEvent_scroll_horizontal fuel ev hc ho, Option.map_eq_some'] at h
      obtain ⟨s, hs, rfl⟩ := h
      rw [QAbstractSlider.setValue_zoom _ fuel st _ _ s hs rfl]
      exact hz

/-- With fuel 4 every wheel event returns. -/
theorem ScalableWrapper.wheelEvent_total (fuel : Nat) (hfuel : 4 ≤ fuel) (st : ScalableWrapper)
    (ev : QWheelEvent) : ∃ r, st.wheelEvent fuel ev = some r := by
  by_cases hc : ev.modifiers &&& Qt.ControlModifier ≠ 0
  · cases ho : ev.orientation with
    | Vertical => exact ⟨_, st.wheelEvent_zoom fuel ev hc ho⟩
    | Horizontal => exact ⟨_, st.wheelEvent_control_horizontal fuel ev hc ho⟩
  · cases ho : ev.orientation with
    | Vertical =>
      obtain ⟨vx, vy, h, -⟩ := QAbstractSlider.setValue_total fuel hfuel st .wrapperVertical
        (st.verticalScrollBar.value
          - Int.tdiv ev.angleDelta.y 120 * st.verticalScrollBar.singleStep)
      exact ⟨_, by rw [st.wheelEvent_scroll_vertical fuel ev hc ho, h]; rfl⟩
    | Horizontal =>
      obtain ⟨vx, vy, h, -⟩ := QAbstractSlider.setValue_total fuel hfuel st .wrapperHorizontal
        (st.horizontalScrollBar.value
          - Int.tdiv ev.angleDelta.y 120 * st.horizontalScrollBar.singleStep)
      exact ⟨_, by rw [st.wheelEvent_scroll_horizontal fuel ev hc ho, h]; rfl⟩

/-! ## Sequences of callbacks: totality and the zoom bound -/

/-- The event filter never touches the zoom factor. -/
theorem ScalableWrapper.eventFilter_zoom (st : ScalableWrapper) (ev : QEvent) (base : Bool) :
    (st.eventFilter ev base).1.m_zoomRange = st.m_zoomRange := by
  unfold ScalableWrapper.eventFilter
  dsimp only
  split_ifs <;> rfl

/-- A callback that returns keeps the zoom factor at or above one half. -/
theorem ScalableWrapper.deliver_zoom_ge (fuel : Nat) (st r : ScalableWrapper) (c : Callback)
    (h : st.deliver fuel c = some r) (hz : 1 / 2 ≤ st.m_zoomRange) :
    1 / 2 ≤ r.m_zoomRange := by
  cases c with
  | wheel ev =>
    simp only [ScalableWrapper.deliver, Option.map_eq_some'] at h
    obtain ⟨p, hp, rfl⟩ := h
    exact st.wheelEvent_zoom_ge fuel ev p hp hz
  | paint =>
    simp only [ScalableWrapper.deliver] at h
    rw [st.paintEvent_zoom fuel r h]
    exact hz
  | filter ev base =>
    simp only [ScalableWrapper.deliver, Option.some.injEq] at h
    subst h
    rw [st.eventFilter_zoom ev base]
    exact hz

/-- With fuel 4 every callback returns. -/
theorem ScalableWrapper.deliver_total (fuel : Nat) (hfuel : 4 ≤ fuel) (st : ScalableWrapper)
    (c : Callback) : ∃ r, st.deliver fuel c = some r := by
  cases c with
  | wheel ev =>
    obtain ⟨p, hp⟩ := st.wheelEvent_total fuel hfuel ev
    exact ⟨p.1, by simp [ScalableWrapper.deliver, hp]⟩
  | paint =>
    obtain ⟨hv, vv, ehv, evv, h, -⟩ := st.paintEvent_total fuel hfuel
    exact ⟨_, h⟩
  | filter ev base => exact ⟨_, rfl⟩

/-- A sequence of callbacks that returns keeps the zoom factor at or above one half. -/
theorem ScalableWrapper.run_zoom_ge (fuel : Nat) (cs : List Callback) :
    ∀ (st r : ScalableWrapper), st.run fuel cs = some r → 1 / 2 ≤ st.m_zoomRange →
      1 / 2 ≤ r.m_zoomRange := by
  induction cs with
  | nil =>
    intro st r h hz
    simp only [ScalableWrapper.run, Option.some.injEq] at h
    subst h
    exact hz
  | cons c cs ih =>
    intro st r h hz
    simp only [ScalableWrapper.run, Option.bind_eq_some] at h
    obtain ⟨s, hs, hr⟩ := h
    exact ih s r hr (st.deliver_zoom_ge fuel s c hs hz)

/-- With fuel 4 every sequence of callbacks returns. -/
theorem ScalableWrapper.run_total (fuel : Nat) (hfuel : 4 ≤ fuel) (cs : List Callback) :
    ∀ st : ScalableWrapper, ∃ r, st.run fuel cs = some r := by
  induction cs with
  | nil => exact fun st => ⟨st, rfl⟩
  | cons c cs ih =>
    intro st
    obtain ⟨s, hs⟩ := st.deliver_total fuel hfuel c
    obtain ⟨r, hr⟩ := ih s
    exact ⟨r, by simp [ScalableWrapper.run, hs, hr]⟩

/-- One half and one are doubles. -/
theorem isDouble_one_half : IsDouble (1 / 2) := by
  unfold IsDouble
  apply roundToDouble_eq_of_pos _ _ (-1) (2 ^ 52) <;> norm_num [abs_lt]

theorem isDouble_one : IsDouble 1 := by
  unfold IsDouble
  apply roundToDouble_eq_of_pos _ _ 0 (2 ^ 52) <;> norm_num [abs_lt]

/-- A wheel event that returns keeps the zoom factor a double. -/
theorem ScalableWrapper.wheelEvent_zoom_isDouble (fuel : Nat) (st : ScalableWrapper)
    (ev : QWheelEvent) (r : ScalableWrapper × Bool) (h : st.wheelEvent fuel ev = some r)
    (hz : IsDouble st.m_zoomRange) : IsDouble r.1.m_zoomRange := by
  by_cases hc : ev.modifiers &&& Qt.ControlModifier ≠ 0
  · cases ho : ev.orientation with
    | Vertical =>
      rw [st.wheelEvent_zoom fuel ev hc ho] at h
      cases h
      dsimp only
      rcases max_choice (1 / 2 : ℚ) (roundToDouble (st.m_zoomRange
        + roundToDouble ((Int.tdiv ev.angleDelta.y 120 : ℚ) / 10))) with hm | hm
      · rw [hm]; exact isDouble_one_half
      · rw [hm]; exact roundToDouble_idem _
    | Horizontal =>
      rw [st.wheelEvent_control_horizontal fuel ev hc ho] at h
      cases h
      exact hz
  · cases ho : ev.orientation with
    | Vertical =>
      rw [st.wheelEvent_scroll_vertical fuel ev hc ho, Option.map_eq_some'] at h
      obtain ⟨s, hs, rfl⟩ := h
      rw [QAbstractSlider.setValue_zoom _ fuel st _ _ s hs rfl]
      exact hz
    | Horizontal =>
      rw [st.wheelEvent_scroll_horizontal fuel ev hc ho, Option.map_eq_some'] at h
      obtain ⟨s, hs, rfl⟩ := h
      rw [QAbstractSlider.setValue_zoom _ fuel st _ _ s hs rfl]
      exact hz

/-- A callback that returns keeps the zoom factor a double. -/
theorem ScalableWrapper.deliver_zoom_isDouble (fuel : Nat) (st r : ScalableWrapper)
    (c : Callback) (h : st.deliver fuel c = some r) (hz : IsDouble st.m_zoomRange) :
    IsDouble r.m_zoomRange := by
  cases c with
  | wheel ev =>
    simp only [ScalableWrapper.deliver, Option.map_eq_some'] at h
    obtain ⟨p, hp, rfl⟩ := h
    exact st.wheelEvent_zoom_isDouble fuel ev p hp hz
  | paint =>
    simp only [ScalableWrapper.deliver] at h
    rw [st.paintEvent_zoom fuel r h]
    exact hz
  | filter ev base =>
    simp only [ScalableWrapper.deliver, Option.some.injEq] at h
    subst h
    rw [st.eventFilter_zoom ev base]
    exact hz

/-- A sequence of callbacks that returns keeps the zoom factor a double. -/
theorem ScalableWrapper.run_zoom_isDouble (fuel : Nat) (cs : List Callback) :
    ∀ (st r : ScalableWrapper), st.run fuel cs = some r → IsDouble st.m_zoomRange →
      IsDouble r.m_zoomRange := by
  induction cs with
  | nil =>
    intro st r h hz
    simp only [ScalableWrapper.run, Option.some.injEq] at h
    subst h
    exact hz
  | cons c cs ih =>
    intro st r h hz
    simp only [ScalableWrapper.run, Option.bind_eq_some] at h
    obtain ⟨s, hs, hr⟩ := h
    exact ih s r hr (st.deliver_zoom_isDouble fuel s c hs hz)

/-- Running a list of callbacks that starts with a wheel event that returns. -/
theorem ScalableWrapper.run_cons_wheel (fuel : Nat) (st s : ScalableWrapper) (ev : QWheelEvent)
    (a : Bool) (cs : List Callback) (h : st.wheelEvent fuel ev = some (s, a)) :
    st.run fuel (Callback.wheel ev :: cs) = s.run fuel cs := by
  simp [ScalableWrapper.run, ScalableWrapper.deliver, h]

theorem ScalableWrapper.construct_zoom (wv wh ev eh : QScrollBar) (w h : Int)
    (size : Int × Int) : (ScalableWrapper.construct wv wh ev eh w h size).m_zoomRange = 1 := by
  simp [ScalableWrapper.construct, ScalableWrapper.setupScrollingSynchronization_true,
    ScalableWrapper.disconnectAll]

/-! ## The claims -/

/-- C1: zoom lower bound as an invariant of the reachable states. Starting from the
constructed state (zoom factor 1), every finite sequence of wheel events (any modifiers,
any orientation, any angle delta), render passes and event-filter calls returns when the
fuel is at least 4, and the stored zoom factor `m_zoomRange` of the state it ends in is at
least 1/2. -/
theorem zoom_lower_bound_reachable (wv wh ev eh : QScrollBar) (w h : Int) (size : Int × Int)
    (fuel : Nat) (hfuel : 4 ≤ fuel) (cs : List Callback) :
    ∃ st, (ScalableWrapper.construct wv wh ev eh w h size).run fuel cs = some st ∧
      1 / 2 ≤ st.m_zoomRange := by
  obtain ⟨r, hr⟩ := ScalableWrapper.run_total fuel hfuel cs
    (ScalableWrapper.construct wv wh ev eh w h size)
  refine ⟨r, hr, ScalableWrapper.run_zoom_ge fuel cs _ r hr ?_⟩
  rw [ScalableWrapper.construct_zoom]
  norm_num

/-- Witness of C1: a fresh wrapper that receives six zoom-out gestures of ten notches, a
plain scroll, a render pass and a context-menu request. -/
theorem zoom_lower_bound_reachable_witness :
    4 ≤ 4 ∧
    ∃ st, (ScalableWrapper.construct ⟨0, 99, 0, 1, 16, 600⟩ ⟨0, 99, 0, 1, 800, 16⟩
        ⟨0, 300, 0, 20, 16, 600⟩ ⟨0, 0, 0, 20, 800, 16⟩ 800 600 (256, 192)).run 4
        [Callback.wheel ⟨Qt.ControlModifier, Qt.Orientation.Vertical, ⟨0, -1200⟩, false⟩,
         Callback.wheel ⟨Qt.ControlModifier, Qt.Orientation.Vertical, ⟨0, -1200⟩, false⟩,
         Callback.wheel ⟨0, Qt.Orientation.Vertical, ⟨0, -120⟩, false⟩,
         Callback.paint,
         Callback.filter ⟨QEvent.ContextMenu, 0⟩ false] = some st ∧
      1 / 2 ≤ st.m_zoomRange :=
  ⟨le_refl 4, zoom_lower_bound_reachable _ _ _ _ _ _ _ 4 (le_refl 4) _⟩

/-- C2, as amended: zoom step in double arithmetic. For every state and every wheel event
with the Control modifier held, vertical orientation and a vertical angle delta `d` that
is a whole multiple of 120, `wheelEvent` leaves the zoom factor equal to
`max (1/2) (z + (d / 120) / 10)` where the division by ten and the addition are those of
`double` (each exact result rounded to the nearest double), sets the scale of the editor
proxy to that same value and accepts the event. In particular, from zoom 1 a delta of +120
gives the double `1.1`, a following delta of -240 gives `0.9000000000000001`, and
repeating the delta -240 gives `0.7000000000000002`, then `0.5000000000000002` (which is
`1/2 + 2 ^ (-52)`, above the minimum and so not clamped), then exactly `1/2` (clamped), and
from then on it stays at exactly `1/2`. -/
theorem wheel_zoom_step :
    (∀ (fuel : Nat) (st : ScalableWrapper) (e : QWheelEvent),
      e.modifiers &&& Qt.ControlModifier ≠ 0 →
      e.orientation = Qt.Orientation.Vertical →
      (120 : Int) ∣ e.angleDelta.y →
      st.wheelEvent fuel e = some
        ({ st with
            m_zoomRange := max (1 / 2) (roundToDouble (st.m_zoomRange
              + roundToDouble (((e.angleDelta.y : ℚ) / 120) / 10)))
            editorProxyScale := max (1 / 2) (roundToDouble (st.m_zoomRange
              + roundToDouble (((e.angleDelta.y : ℚ) / 120) / 10))) },
          true)) ∧
    (∀ (fuel : Nat) (st : ScalableWrapper) (x : Int) (a : Bool),
      ∃ s1 s2 s3 s4 s5 s6 : ScalableWrapper,
        ({ st with m_zoomRange := 1 } : ScalableWrapper).wheelEvent fuel
          ⟨Qt.ControlModifier, Qt.Orientation.Vertical, ⟨x, 120⟩, a⟩ = some (s1, true) ∧
        s1.m_zoomRange = 2476979795053773 / 2251799813685248 ∧
        s1.editorProxyScale = 2476979795053773 / 2251799813685248 ∧
        s1.wheelEvent fuel ⟨Qt.ControlModifier, Qt.Orientation.Vertical, ⟨x, -240⟩, a⟩ =
          some (s2, true) ∧
        s2.m_zoomRange = 4053239664633447 / 4503599627370496 ∧
        s2.editorProxyScale = 4053239664633447 / 4503599627370496 ∧
        s2.wheelEvent fuel ⟨Qt.ControlModifier, Qt.Orientation.Vertical, ⟨x, -240⟩, a⟩ =
          some (s3, true) ∧
        s3.m_zoomRange = 788129934789837 / 1125899906842624 ∧
        s3.editorProxyScale = 788129934789837 / 1125899906842624 ∧
        s3.wheelEvent fuel ⟨Qt.ControlModifier, Qt.Orientation.Vertical, ⟨x, -240⟩, a⟩ =
          some (s4, true) ∧
        s4.m_zoomRange = 1 / 2 + 2 ^ (-52 : Int) ∧
        s4.editorProxyScale = 1 / 2 + 2 ^ (-52 : Int) ∧
        s4.wheelEvent fuel ⟨Qt.ControlModifier, Qt.Orientation.Vertical, ⟨x, -240⟩, a⟩ =
          some (s5, true) ∧
        s5.m_zoomRange = 1 / 2 ∧ s5.editorProxyScale = 1 / 2 ∧
        s5.wheelEvent fuel ⟨Qt.ControlModifier, Qt.Orientation.Vertical, ⟨x, -240⟩, a⟩ =
          some (s6, true) ∧
        s6.m_zoomRange = 1 / 2 ∧ s6.editorProxyScale = 1 / 2) := by
  constructor
  · intro fuel st e hc hv hd
    rw [st.wheelEvent_zoom fuel e hc hv]
    obtain ⟨k, hk⟩ := hd
    have hq : (Int.tdiv e.angleDelta.y 120 : ℚ) = (e.angleDelta.y : ℚ) / 120 := by
      rw [hk, Int.mul_tdiv_cancel_left k (by norm_num : (120 : Int) ≠ 0)]
      push_cast
      field_simp
    rw [hq]
  · intro fuel st x a
    have hc : Qt.ControlModifier &&& Qt.ControlModifier ≠ 0 := by decide
    have hup : Int.tdiv 120 120 = 1 := by decide
    have hdown : Int.tdiv (-240) 120 = -2 := by decide
    have h4 : (2251799813685249 / 4503599627370496 : ℚ) = 1 / 2 + 2 ^ (-52 : Int) := by
      norm_num
    refine ⟨_, _, _, _, _, _,
      ScalableWrapper.wheelEvent_zoom_to fuel _ _ hc rfl 1 _ _ hup
        roundToDouble_one_tenths roundToDouble_step_up_1 (by norm_num), rfl, rfl,
      ScalableWrapper.wheelEvent_zoom_to fuel _ _ hc rfl (-2) _ _ hdown
        roundToDouble_minus_two_tenths roundToDouble_step_down_1 (by norm_num), rfl, rfl,
      ScalableWrapper.wheelEvent_zoom_to fuel _ _ hc rfl (-2) _ _ hdown
        roundToDouble_minus_two_tenths roundToDouble_step_down_2 (by norm_num), rfl, rfl,
      ScalableWrapper.wheelEvent_zoom_to fuel _ _ hc rfl (-2) _ _ hdown
        roundToDouble_minus_two_tenths roundToDouble_step_down_3 (by norm_num), h4, h4,
      ScalableWrapper.wheelEvent_zoom_clamped fuel _ _ hc rfl (-2) _ _ hdown
        roundToDouble_minus_two_tenths roundToDouble_step_down_4 (by norm_num), rfl, rfl,
      ScalableWrapper.wheelEvent_zoom_clamped fuel _ _ hc rfl (-2) _ _ hdown
        roundToDouble_minus_two_tenths roundToDouble_step_down_5 (by norm_num), rfl, rfl⟩

/-- Witness of C2 as amended: the general step at zoom 1 and a delta of +120, one notch
up, which gives the double `1.1`. -/
theorem wheel_zoom_step_witness :
    (⟨Qt.ControlModifier, Qt.Orientation.Vertical, ⟨0, 120⟩, false⟩ : QWheelEvent).modifiers
      &&& Qt.ControlModifier ≠ 0 ∧
    (120 : Int) ∣ 120 ∧
    scrolledPastEnd.wheelEvent 0 ⟨Qt.ControlModifier, Qt.Orientation.Vertical, ⟨0, 120⟩, false⟩ =
      some (scrolledPastEnd.zoomedTo (2476979795053773 / 2251799813685248), true) :=
  ⟨by decide, ⟨1, by decide⟩,
    (wheel_zoom_step.1 0 scrolledPastEnd
      ⟨Qt.ControlModifier, Qt.Orientation.Vertical, ⟨0, 120⟩, false⟩
      (by decide) rfl ⟨1, by decide⟩).trans (by
        have h1 : (((120 : Int) : ℚ) / 120) / 10 = ((1 : Int) : ℚ) / 10 := by norm_num
        have h2 : scrolledPastEnd.m_zoomRange = 1 := rfl
        simp only [h1, h2, roundToDouble_one_tenths, roundToDouble_step_up_1]
        rw [max_eq_right (by norm_num)]
        rfl)⟩

/-- Counterexample to C2 as stated: in the state `scrolledPastEnd`, whose zoom factor is 1,
one notch up stores the double `1.1`, which is not the exact `1 + (120 / 120) / 10`; and
after the deltas +120, -240, -240, -240 the stored zoom factor and the scale of the editor
proxy are `2251799813685249 / 2 ^ 52`, the double `0.5000000000000002`, not `1/2`. -/
theorem wheel_zoom_step_counterexample :
    scrolledPastEnd.m_zoomRange = 1 ∧
    (scrolledPastEnd.wheelEvent 4
      ⟨Qt.ControlModifier, Qt.Orientation.Vertical, ⟨0, 120⟩, false⟩).map
      (fun r => r.1.m_zoomRange) = some (2476979795053773 / 2251799813685248) ∧
    (2476979795053773 / 2251799813685248 : ℚ) ≠
      max (1 / 2) (1 + (((120 : Int) : ℚ) / 120) / 10) ∧
    (scrolledPastEnd.run 4
      [Callback.wheel ⟨Qt.ControlModifier, Qt.Orientation.Vertical, ⟨0, 120⟩, false⟩,
       Callback.wheel ⟨Qt.ControlModifier, Qt.Orientation.Vertical, ⟨0, -240⟩, false⟩,
       Callback.wheel ⟨Qt.ControlModifier, Qt.Orientation.Vertical, ⟨0, -240⟩, false⟩,
       Callback.wheel ⟨Qt.ControlModifier, Qt.Orientation.Vertical, ⟨0, -240⟩, false⟩]).map
      (fun r => (r.m_zoomRange, r.editorProxyScale)) =
      some (2251799813685249 / 4503599627370496, 2251799813685249 / 4503599627370496) ∧
    (2251799813685249 / 4503599627370496 : ℚ) ≠ 1 / 2 := by
  have hc : Qt.ControlModifier &&& Qt.ControlModifier ≠ 0 := by decide
  have hup : Int.tdiv 120 120 = 1 := by decide
  have hdown : Int.tdiv (-240) 120 = -2 := by decide
  have e1 : scrolledPastEnd.wheelEvent 4
      ⟨Qt.ControlModifier, Qt.Orientation.Vertical, ⟨0, 120⟩, false⟩ =
      some (scrolledPastEnd.zoomedTo (2476979795053773 / 2251799813685248), true) :=
    ScalableWrapper.wheelEvent_zoom_to 4 _ _ hc rfl 1 _ _ hup
      roundToDouble_one_tenths roundToDouble_step_up_1 (by norm_num)
  have e2 : (scrolledPastEnd.zoomedTo (2476979795053773 / 2251799813685248)).wheelEvent 4
      ⟨Qt.ControlModifier, Qt.Orientation.Vertical, ⟨0, -240⟩, false⟩ =
      some ((scrolledPastEnd.zoomedTo (2476979795053773 / 2251799813685248)).zoomedTo
        (4053239664633447 / 4503599627370496), true) :=
    ScalableWrapper.wheelEvent_zoom_to 4 _ _ hc rfl (-2) _ _ hdown
      roundToDouble_minus_two_tenths roundToDouble_step_down_1 (by norm_num)
  have e3 : ((scrolledPastEnd.zoomedTo (2476979795053773 / 2251799813685248)).zoomedTo
        (4053239664633447 / 4503599627370496)).wheelEvent 4
      ⟨Qt.ControlModifier, Qt.Orientation.Vertical, ⟨0, -240⟩, false⟩ =
      some (((scrolledPastEnd.zoomedTo (2476979795053773 / 2251799813685248)).zoomedTo
        (4053239664633447 / 4503599627370496)).zoomedTo
        (788129934789837 / 1125899906842624), true) :=
    ScalableWrapper.wheelEvent_zoom_to 4 _ _ hc rfl (-2) _ _ hdown
      roundToDouble_minus_two_tenths roundToDouble_step_down_2 (by norm_num)
  have e4 : (((scrolledPastEnd.zoomedTo (2476979795053773 / 2251799813685248)).zoomedTo
        (4053239664633447 / 4503599627370496)).zoomedTo
        (788129934789837 / 1125899906842624)).wheelEvent 4
      ⟨Qt.ControlModifier, Qt.Orientation.Vertical, ⟨0, -240⟩, false⟩ =
      some ((((scrolledPastEnd.zoomedTo (2476979795053773 / 2251799813685248)).zoomedTo
        (4053239664633447 / 4503599627370496)).zoomedTo
        (788129934789837 / 1125899906842624)).zoomedTo
        (2251799813685249 / 4503599627370496), true) :=
    ScalableWrapper.wheelEvent_zoom_to 4 _ _ hc rfl (-2) _ _ hdown
      roundToDouble_minus_two_tenths roundToDouble_step_down_3 (by norm_num)
  refine ⟨rfl, ?_, by norm_num, ?_, by norm_num⟩
  · rw [e1]; rfl
  · rw [ScalableWrapper.run_cons_wheel 4 _ _ _ _ _ e1,
      ScalableWrapper.run_cons_wheel 4 _ _ _ _ _ e2,
      ScalableWrapper.run_cons_wheel 4 _ _ _ _ _ e3,
      ScalableWrapper.run_cons_wheel 4 _ _ _ _ _ e4]
    rfl

/-- C3, as amended: render pass and the wrapper's scroll position. For every state whose
wrapper bars are well formed, `paintEvent` returns (fuel at least 4) and afterwards each
wrapper bar holds the value it had before the pass capped at the editor's maximum on that
axis. Hence the values are the ones from before the pass whenever those did not exceed the
editor's maxima, and they are always the values held right after `updateTextEditSize`:
the reset to 0 and the restore cancel out. -/
theorem paintEvent_scroll_values (fuel : Nat) (hfuel : 4 ≤ fuel) (st : ScalableWrapper)
    (hV : st.verticalScrollBar.WellFormed) (hH : st.horizontalScrollBar.WellFormed) :
    ∃ r, st.paintEvent fuel = some r ∧
      r.verticalScrollBar.value =
        min st.verticalScrollBar.value st.editorVerticalScrollBar.maximum ∧
      r.horizontalScrollBar.value =
        min st.horizontalScrollBar.value st.editorHorizontalScrollBar.maximum ∧
      (st.verticalScrollBar.value ≤ st.editorVerticalScrollBar.maximum →
        r.verticalScrollBar.value = st.verticalScrollBar.value) ∧
      (st.horizontalScrollBar.value ≤ st.editorHorizontalScrollBar.maximum →
        r.horizontalScrollBar.value = st.horizontalScrollBar.value) ∧
      ∃ s1, st.updateTextEditSize fuel = some s1 ∧
        r.verticalScrollBar.value = s1.verticalScrollBar.value ∧
        r.horizontalScrollBar.value = s1.horizontalScrollBar.value := by
  obtain ⟨hv, vv, ehv, evv, h1, hhv, hvv⟩ := st.updateTextEditSize_total fuel hfuel
  have hp := ScalableWrapper.paintEvent_eq fuel (by omega) st _ h1
  have e1 := hhv hH
  have e2 := hvv hV
  unfold QScrollBar.WellFormed at hV hH
  refine ⟨_, hp, ?_, ?_, ?_, ?_, _, h1, ?_, ?_⟩ <;>
    simp only [QScrollBar.bound] <;> omega

/-- Witness of C3 as amended: the vertical bar stands at 50 of 100 while the editor's
vertical maximum is 10; the horizontal bar stands at 7 and the editor's maximum is 200. -/
theorem paintEvent_scroll_values_witness :
    4 ≤ 4 ∧ scrolledPastEnd.verticalScrollBar.WellFormed ∧
    scrolledPastEnd.horizontalScrollBar.WellFormed ∧
    ∃ r, scrolledPastEnd.paintEvent 4 = some r ∧
      r.verticalScrollBar.value =
        min scrolledPastEnd.verticalScrollBar.value
          scrolledPastEnd.editorVerticalScrollBar.maximum ∧
      r.horizontalScrollBar.value =
        min scrolledPastEnd.horizontalScrollBar.value
          scrolledPastEnd.editorHorizontalScrollBar.maximum ∧
      (scrolledPastEnd.verticalScrollBar.value ≤
          scrolledPastEnd.editorVerticalScrollBar.maximum →
        r.verticalScrollBar.value = scrolledPastEnd.verticalScrollBar.value) ∧
      (scrolledPastEnd.horizontalScrollBar.value ≤
          scrolledPastEnd.editorHorizontalScrollBar.maximum →
        r.horizontalScrollBar.value = scrolledPastEnd.horizontalScrollBar.value) ∧
      ∃ s1, scrolledPastEnd.updateTextEditSize 4 = some s1 ∧
        r.verticalScrollBar.value = s1.verticalScrollBar.value ∧
        r.horizontalScrollBar.value = s1.horizontalScrollBar.value :=
  ⟨le_refl 4, by decide, by decide,
    paintEvent_scroll_values 4 (le_refl 4) scrolledPastEnd (by decide) (by decide)⟩

/-- Counterexample to C3 as stated: the well-formed state `scrolledPastEnd` is reached from
a constructed wrapper by two plain wheel events; there the wrapper's vertical bar stands
at 50 before the render pass and at 10 after it. -/
theorem paintEvent_scroll_neutral_counterexample :
    (ScalableWrapper.construct ⟨0, 100, 0, 1, 16, 600⟩ ⟨0, 200, 0, 1, 800, 16⟩
        ⟨0, 10, 10, 20, 16, 600⟩ ⟨0, 200, 0, 20, 800, 16⟩ 800 600 (817, 617)).run 4
      [Callback.wheel ⟨0, Qt.Orientation.Vertical, ⟨0, -6000⟩, false⟩,
       Callback.wheel ⟨0, Qt.Orientation.Horizontal, ⟨0, -840⟩, false⟩] =
      some scrolledPastEnd ∧
    scrolledPastEnd.verticalScrollBar.WellFormed ∧
    scrolledPastEnd.horizontalScrollBar.WellFormed ∧
    scrolledPastEnd.editorVerticalScrollBar.WellFormed ∧
    scrolledPastEnd.editorHorizontalScrollBar.WellFormed ∧
    scrolledPastEnd.verticalScrollBar.value = 50 ∧
    (scrolledPastEnd.paintEvent 4).map (fun r => r.verticalScrollBar.value) = some 10 := by
  refine ⟨?_, by decide, by decide, by decide, by decide, rfl, ?_⟩
  · rfl
  · rfl

/-- C4, as amended: editor proxy size in double arithmetic. For every state with zoom
factor `z` at least 1/2, viewport size `(w, h)` and editor scrollbar thicknesses `tv`
(width of the editor's vertical bar) and `th` (height of its horizontal bar), a render
pass returns (fuel at least 4) and has resized the editor proxy to `w / z + tv + z` by
`h / z + th + z`, each evaluated from left to right in `double` arithmetic (the quotient
and each of the two sums rounded to the nearest double) and then truncated to an integer.
With `z = 1`, viewport 800 x 600 and thickness 16 on both bars the size is `(817, 617)`. -/
theorem editor_proxy_size (fuel : Nat) (hfuel : 4 ≤ fuel) (st : ScalableWrapper)
    (_hz : 1 / 2 ≤ st.m_zoomRange) :
    (∃ r, st.paintEvent fuel = some r ∧
      r.editorProxySize =
        (qrealToInt (roundToDouble (roundToDouble
            (roundToDouble ((st.viewportWidth : ℚ) / st.m_zoomRange)
              + (st.editorVerticalScrollBar.width : ℚ)) + st.m_zoomRange)),
         qrealToInt (roundToDouble (roundToDouble
            (roundToDouble ((st.viewportHeight : ℚ) / st.m_zoomRange)
              + (st.editorHorizontalScrollBar.height : ℚ)) + st.m_zoomRange)))) ∧
    (∃ r, ({ st with
        m_zoomRange := 1
        viewportWidth := 800
        viewportHeight := 600
        editorVerticalScrollBar := { st.editorVerticalScrollBar with width := 16 }
        editorHorizontalScrollBar := { st.editorHorizontalScrollBar with height := 16 } } :
        ScalableWrapper).paintEvent fuel = some r ∧
      r.editorProxySize = (817, 617)) := by
  constructor
  · obtain ⟨hv, vv, ehv, evv, h, -⟩ := st.paintEvent_total fuel hfuel
    exact ⟨_, h, rfl⟩
  · obtain ⟨hv, vv, ehv, evv, h, -⟩ := ScalableWrapper.paintEvent_total fuel hfuel
      ({ st with
        m_zoomRange := 1
        viewportWidth := 800
        viewportHeight := 600
        editorVerticalScrollBar := { st.editorVerticalScrollBar with width := 16 }
        editorHorizontalScrollBar := { st.editorHorizontalScrollBar with height := 16 } })
    refine ⟨_, h, ?_⟩
    simp only [editorSizeFor, roundToDouble_800_div_1, roundToDouble_800_bar,
      roundToDouble_816_zoom, roundToDouble_600_div_1, roundToDouble_600_bar,
      roundToDouble_616_zoom]
    rw [qrealToInt_eq_of_nonneg 817 817 (by norm_num) (by norm_num) (by norm_num),
      qrealToInt_eq_of_nonneg 617 617 (by norm_num) (by norm_num) (by norm_num)]

/-- Witness of C4 as amended: zoom 3/2 on an 800 x 600 viewport with bars 16 thick. In
doubles the width is `533.3333333333334 + 16 + 1.5 = 550.8333333333334` and the height is
`400 + 16 + 1.5 = 417.5`, truncated to `(550, 417)`. -/
theorem editor_proxy_size_witness :
    4 ≤ 4 ∧ (1 : ℚ) / 2 ≤ (scrolledPastEnd.zoomedTo (3 / 2)).m_zoomRange ∧
    ∃ r, (scrolledPastEnd.zoomedTo (3 / 2)).paintEvent 4 = some r ∧
      r.editorProxySize = (550, 417) :=
  ⟨le_refl 4, by norm_num [ScalableWrapper.zoomedTo],
    (fun ⟨r, h, hs⟩ => ⟨r, h, hs.trans (by
      simp only [ScalableWrapper.zoomedTo, scrolledPastEnd, roundToDouble_800_div_3_2,
        roundToDouble_533_bar, roundToDouble_549_zoom, roundToDouble_600_div_3_2,
        roundToDouble_400_bar, roundToDouble_416_zoom]
      rw [qrealToInt_eq_of_nonneg _ 550 (by norm_num) (by norm_num) (by norm_num),
        qrealToInt_eq_of_nonneg _ 417 (by norm_num) (by norm_num) (by norm_num)])⟩)
      (editor_proxy_size 4 (le_refl 4) (scrolledPastEnd.zoomedTo (3 / 2))
        (by norm_num [ScalableWrapper.zoomedTo])).1⟩

/-- Counterexample to C4 as stated: the state `zoomedThreeTimes` is reached from a fresh
wrapper with a 1024 x 768 viewport by zoom gestures of three, eleven and six notches; its
zoom factor is the double `3.0000000000000004`. There the render pass resizes the proxy
to height 275 (in doubles `768 / z` is `255.99999999999997`, plus 16 is `272`, plus `z` is
`275`), while `768 / z + 16 + z` evaluated exactly lies below 275 and truncates to 274. -/
theorem editor_proxy_size_counterexample :
    freshLargeWrapper.run 4
      [Callback.wheel ⟨Qt.ControlModifier, Qt.Orientation.Vertical, ⟨0, 360⟩, false⟩,
       Callback.wheel ⟨Qt.ControlModifier, Qt.Orientation.Vertical, ⟨0, 1320⟩, false⟩,
       Callback.wheel ⟨Qt.ControlModifier, Qt.Orientation.Vertical, ⟨0, 720⟩, false⟩] =
      some zoomedThreeTimes ∧
    zoomedThreeTimes.m_zoomRange = 6755399441055745 / 2251799813685248 ∧
    zoomedThreeTimes.viewportHeight = 768 ∧
    zoomedThreeTimes.editorHorizontalScrollBar.height = 16 ∧
    (1 : ℚ) / 2 ≤ zoomedThreeTimes.m_zoomRange ∧
    (zoomedThreeTimes.paintEvent 4).map (fun r => r.editorProxySize.2) = some 275 ∧
    qrealToInt (((768 : Int) : ℚ) / (6755399441055745 / 2251799813685248)
      + ((16 : Int) : ℚ) + 6755399441055745 / 2251799813685248) = 274 := by
  have hc : Qt.ControlModifier &&& Qt.ControlModifier ≠ 0 := by decide
  have e1 : freshLargeWrapper.wheelEvent 4
      ⟨Qt.ControlModifier, Qt.Orientation.Vertical, ⟨0, 360⟩, false⟩ =
      some (freshLargeWrapper.zoomedTo (5854679515581645 / 4503599627370496), true) :=
    ScalableWrapper.wheelEvent_zoom_to 4 _ _ hc rfl 3 _ _ (by decide)
      roundToDouble_three_tenths roundToDouble_triple_1 (by norm_num)
  have e2 : (freshLargeWrapper.zoomedTo (5854679515581645 / 4503599627370496)).wheelEvent 4
      ⟨Qt.ControlModifier, Qt.Orientation.Vertical, ⟨0, 1320⟩, false⟩ =
      some ((freshLargeWrapper.zoomedTo (5854679515581645 / 4503599627370496)).zoomedTo
        (1351079888211149 / 562949953421312), true) :=
    ScalableWrapper.wheelEvent_zoom_to 4 _ _ hc rfl 11 _ _ (by decide)
      roundToDouble_eleven_tenths roundToDouble_triple_2 (by norm_num)
  have e3 : ((freshLargeWrapper.zoomedTo (5854679515581645 / 4503599627370496)).zoomedTo
        (1351079888211149 / 562949953421312)).wheelEvent 4
      ⟨Qt.ControlModifier, Qt.Orientation.Vertical, ⟨0, 720⟩, false⟩ =
      some (((freshLargeWrapper.zoomedTo (5854679515581645 / 4503599627370496)).zoomedTo
        (1351079888211149 / 562949953421312)).zoomedTo
        (6755399441055745 / 2251799813685248), true) :=
    ScalableWrapper.wheelEvent_zoom_to 4 _ _ hc rfl 6 _ _ (by decide)
      roundToDouble_six_tenths roundToDouble_triple_3 (by norm_num)
  have hsize : (editorSizeFor zoomedThreeTimes).2 = 275 := by
    simp only [editorSizeFor, zoomedThreeTimes, roundToDouble_height_div,
      roundToDouble_height_bar, roundToDouble_height_zoom]
    exact qrealToInt_eq_of_nonneg 275 275 (by norm_num) (by norm_num) (by norm_num)
  refine ⟨?_, rfl, rfl, rfl, by norm_num [zoomedThreeTimes], ?_, ?_⟩
  · rw [ScalableWrapper.run_cons_wheel 4 _ _ _ _ _ e1,
      ScalableWrapper.run_cons_wheel 4 _ _ _ _ _ e2,
      ScalableWrapper.run_cons_wheel 4 _ _ _ _ _ e3]
    rfl
  · obtain ⟨hv, vv, ehv, evv, h, -⟩ := zoomedThreeTimes.paintEvent_total 4 (le_refl 4)
    rw [h, Option.map_some']
    exact congrArg some hsize
  · exact qrealToInt_eq_of_nonneg _ 274 (by norm_num) (by norm_num) (by norm_num)

/-- C5: the marker rectangle and the wrapper's ranges track the editor's scroll maxima,
whatever the zoom. For every state, with `mh` and `mv` the maxima of the editor's
horizontal and vertical bars, `updateTextEditSize` returns (fuel at least 4), leaves the
marker rectangle at `(0, 0, mh, mv)` and the maxima of the wrapper's horizontal and
vertical bars at `mh` and `mv`, and does not change the editor's maxima; run in a state
that differs only in the zoom factor it gives the same rectangle and the same maxima. -/
theorem marker_rect_tracks_editor_maxima (fuel : Nat) (hfuel : 4 ≤ fuel)
    (st : ScalableWrapper) :
    ∃ r, st.updateTextEditSize fuel = some r ∧
      r.m_rect = (0, 0, st.editorHorizontalScrollBar.maximum,
        st.editorVerticalScrollBar.maximum) ∧
      r.horizontalScrollBar.maximum = st.editorHorizontalScrollBar.maximum ∧
      r.verticalScrollBar.maximum = st.editorVerticalScrollBar.maximum ∧
      r.editorHorizontalScrollBar.maximum = st.editorHorizontalScrollBar.maximum ∧
      r.editorVerticalScrollBar.maximum = st.editorVerticalScrollBar.maximum ∧
      ∀ z : ℚ, ∃ r2, ({ st with m_zoomRange := z } : ScalableWrapper).updateTextEditSize fuel =
          some r2 ∧
        r2.m_rect = r.m_rect ∧
        r2.horizontalScrollBar.maximum = r.horizontalScrollBar.maximum ∧
        r2.verticalScrollBar.maximum = r.verticalScrollBar.maximum := by
  obtain ⟨hv, vv, ehv, evv, h, -⟩ := st.updateTextEditSize_total fuel hfuel
  refine ⟨_, h, rfl, rfl, rfl, rfl, rfl, ?_⟩
  intro z
  obtain ⟨hv2, vv2, ehv2, evv2, h2, -⟩ :=
    ScalableWrapper.updateTextEditSize_total fuel hfuel { st with m_zoomRange := z }
  exact ⟨_, h2, rfl, rfl, rfl⟩

/-- Witness of C5: the state `scrolledPastEnd`, whose editor maxima are 200 and 10. -/
theorem marker_rect_tracks_editor_maxima_witness :
    4 ≤ 4 ∧
    ∃ r, scrolledPastEnd.updateTextEditSize 4 = some r ∧
      r.m_rect = (0, 0, scrolledPastEnd.editorHorizontalScrollBar.maximum,
        scrolledPastEnd.editorVerticalScrollBar.maximum) ∧
      r.horizontalScrollBar.maximum = scrolledPastEnd.editorHorizontalScrollBar.maximum ∧
      r.verticalScrollBar.maximum = scrolledPastEnd.editorVerticalScrollBar.maximum ∧
      r.editorHorizontalScrollBar.maximum = scrolledPastEnd.editorHorizontalScrollBar.maximum ∧
      r.editorVerticalScrollBar.maximum = scrolledPastEnd.editorVerticalScrollBar.maximum ∧
      ∀ z : ℚ, ∃ r2, ({ scrolledPastEnd with m_zoomRange := z } :
          ScalableWrapper).updateTextEditSize 4 = some r2 ∧
        r2.m_rect = r.m_rect ∧
        r2.horizontalScrollBar.maximum = r.horizontalScrollBar.maximum ∧
        r2.verticalScrollBar.maximum = r.verticalScrollBar.maximum :=
  ⟨le_refl 4, marker_rect_tracks_editor_maxima 4 (le_refl 4) scrolledPastEnd⟩

/-- The event filter on a press of the right button or a context-menu request: one menu
proxy is created with `1 / zoom`, divided in doubles, as its scale. -/
theorem ScalableWrapper.eventFilter_handled (st : ScalableWrapper) (e : QEvent) (base : Bool)
    (h : (e.type = QEvent.MouseButtonPress ∧ e.button = Qt.RightButton) ∨
      e.type = QEvent.ContextMenu) :
    st.eventFilter e base =
      ({ st with
          menuProxyScales := roundToDouble (1 / st.m_zoomRange) :: st.menuProxyScales },
        true) := by
  unfold ScalableWrapper.eventFilter
  rcases h with ⟨ht, hb⟩ | ht
  · simp [ht, hb]
  · have hne2 : ¬ e.type = QEvent.MouseButtonPress := by
      rw [ht]; decide
    simp only [if_neg hne2, if_pos ht, if_true]

/-- The event filter on any other event: nothing changes and the result is that of the
base handler. -/
theorem ScalableWrapper.eventFilter_other (st : ScalableWrapper) (e : QEvent) (base : Bool)
    (h : ¬ ((e.type = QEvent.MouseButtonPress ∧ e.button = Qt.RightButton) ∨
      e.type = QEvent.ContextMenu)) :
    st.eventFilter e base = (st, base) := by
  unfold ScalableWrapper.eventFilter
  simp only [not_or, not_and] at h
  by_cases ht : e.type = QEvent.MouseButtonPress
  · simp [ht, h.1 ht]
  · simp [ht, h.2]

/-- C6, as amended: the scale of the context menu is the reciprocal of the zoom, rounded.
In every state reached from the constructed one by a sequence of callbacks, the zoom
factor is a double that is at least 1/2, hence not zero; when `eventFilter` gets a press
of the right mouse button or a context-menu request it creates one menu proxy whose scale
is `1 / zoom` as `double` division gives it (the exact quotient rounded to the nearest
double) and returns `true`; `zoom * scale` differs from 1 by at most `2 ^ (-53)` as long
as the zoom factor does not exceed `2 ^ 1022`, and need not be 1. On any other event type,
and on a mouse press with another button, it creates no menu proxy, changes nothing and
returns the result of the base handler. -/
theorem context_menu_scale (wv wh ev eh : QScrollBar) (w h : Int) (size : Int × Int)
    (fuel : Nat) (cs : List Callback) (st : ScalableWrapper)
    (hreach : (ScalableWrapper.construct wv wh ev eh w h size).run fuel cs = some st)
    (e : QEvent) (base : Bool) :
    (((e.type = QEvent.MouseButtonPress ∧ e.button = Qt.RightButton) ∨
          e.type = QEvent.ContextMenu) →
        st.eventFilter e base =
          ({ st with
              menuProxyScales := roundToDouble (1 / st.m_zoomRange) :: st.menuProxyScales },
            true) ∧
        st.m_zoomRange ≠ 0 ∧ 1 / 2 ≤ st.m_zoomRange ∧ IsDouble st.m_zoomRange ∧
        (st.m_zoomRange ≤ 2 ^ (1022 : Int) →
          |st.m_zoomRange * roundToDouble (1 / st.m_zoomRange) - 1| ≤ 2 ^ (-53 : Int))) ∧
    (¬ ((e.type = QEvent.MouseButtonPress ∧ e.button = Qt.RightButton) ∨
          e.type = QEvent.ContextMenu) →
        st.eventFilter e base = (st, base)) := by
  have hz : 1 / 2 ≤ st.m_zoomRange :=
    ScalableWrapper.run_zoom_ge fuel cs _ st hreach
      (by rw [ScalableWrapper.construct_zoom]; norm_num)
  have hd : IsDouble st.m_zoomRange :=
    ScalableWrapper.run_zoom_isDouble fuel cs _ st hreach
      (by rw [ScalableWrapper.construct_zoom]; exact isDouble_one)
  have hpos : 0 < st.m_zoomRange := lt_of_lt_of_le (by norm_num) hz
  have hne : st.m_zoomRange ≠ 0 := ne_of_gt hpos
  refine ⟨fun hshow => ⟨st.eventFilter_handled e base hshow, hne, hz, hd, ?_⟩,
    fun hno => st.eventFilter_other e base hno⟩
  intro hle
  have hq : 0 < 1 / st.m_zoomRange := by positivity
  have hmin : (2 : ℚ) ^ (-1022 : Int) ≤ |1 / st.m_zoomRange| := by
    rw [abs_of_pos hq, zpow_neg, ← one_div]
    exact one_div_le_one_div_of_le hpos hle
  have hr := roundToDouble_abs_sub_le (1 / st.m_zoomRange) hmin
  rw [abs_of_pos hq] at hr
  have e1 : st.m_zoomRange * roundToDouble (1 / st.m_zoomRange) - 1
      = st.m_zoomRange * (roundToDouble (1 / st.m_zoomRange) - 1 / st.m_zoomRange) := by
    field_simp
    ring
  rw [e1, abs_mul, abs_of_pos hpos]
  calc st.m_zoomRange * |roundToDouble (1 / st.m_zoomRange) - 1 / st.m_zoomRange|
      ≤ st.m_zoomRange * (1 / st.m_zoomRange * 2 ^ (-53 : Int)) :=
        mul_le_mul_of_nonneg_left hr (le_of_lt hpos)
    _ = 2 ^ (-53 : Int) := by field_simp

/-- Witness of C6 as amended: a fresh wrapper zoomed in by two notches (zoom `1.2`), then a
right click; the scale of the menu proxy is the double `0.8333333333333334`. -/
theorem context_menu_scale_witness :
    freshWrapper.run 4
      [Callback.wheel ⟨Qt.ControlModifier, Qt.Orientation.Vertical, ⟨0, 240⟩, false⟩] =
      some zoomedIn ∧
    zoomedIn.eventFilter ⟨QEvent.MouseButtonPress, Qt.RightButton⟩ false =
      ({ zoomedIn with menuProxyScales := [7505999378950827 / 9007199254740992] }, true) ∧
    zoomedIn.m_zoomRange ≠ 0 ∧
    |zoomedIn.m_zoomRange * roundToDouble (1 / zoomedIn.m_zoomRange) - 1| ≤ 2 ^ (-53 : Int) :=
  have hrun : freshWrapper.run 4
      [Callback.wheel ⟨Qt.ControlModifier, Qt.Orientation.Vertical, ⟨0, 240⟩, false⟩] =
      some zoomedIn := by
    rw [ScalableWrapper.run_cons_wheel 4 _ _ _ _ _
      (ScalableWrapper.wheelEvent_zoom_to 4 freshWrapper _ (by decide) rfl 2 _ _ (by decide)
        roundToDouble_two_tenths roundToDouble_two_up (by norm_num))]
    rfl
  have hthm := (context_menu_scale _ _ _ _ _ _ _ 4 _ zoomedIn hrun
    ⟨QEvent.MouseButtonPress, Qt.RightButton⟩ false).1 (Or.inl ⟨rfl, rfl⟩)
  ⟨hrun, hthm.1.trans (by
      have hs : roundToDouble (1 / zoomedIn.m_zoomRange) =
          7505999378950827 / 9007199254740992 := roundToDouble_inv_two_up
      rw [hs]
      rfl),
    hthm.2.1, hthm.2.2.2.2 (by norm_num [zoomedIn])⟩

/-- Counterexample to C6 as stated: the state `zoomedNineNotches` is reached from a fresh
wrapper by one zoom gesture of nine notches; its zoom factor is the double `1.9`. On a
context-menu request the scale of the menu proxy is the double `0.5263157894736842`, which
is not `1 / zoom`; the product `zoom * scale` is not 1 when evaluated exactly, and in
double arithmetic it is `0.9999999999999999`, not 1 either. -/
theorem context_menu_scale_counterexample :
    freshWrapper.run 4
      [Callback.wheel ⟨Qt.ControlModifier, Qt.Orientation.Vertical, ⟨0, 1080⟩, false⟩] =
      some zoomedNineNotches ∧
    zoomedNineNotches.m_zoomRange = 4278419646001971 / 2251799813685248 ∧
    zoomedNineNotches.eventFilter ⟨QEvent.ContextMenu, 0⟩ false =
      ({ zoomedNineNotches with menuProxyScales := [4740631186705785 / 9007199254740992] },
        true) ∧
    (4740631186705785 / 9007199254740992 : ℚ) ≠ 1 / (4278419646001971 / 2251799813685248) ∧
    (4278419646001971 / 2251799813685248 : ℚ) * (4740631186705785 / 9007199254740992) ≠ 1 ∧
    roundToDouble ((4278419646001971 / 2251799813685248)
      * (4740631186705785 / 9007199254740992)) = 9007199254740991 / 9007199254740992 ∧
    (9007199254740991 / 9007199254740992 : ℚ) ≠ 1 := by
  refine ⟨?_, rfl, ?_, by norm_num, by norm_num, roundToDouble_nine_up_product,
    by norm_num⟩
  · rw [ScalableWrapper.run_cons_wheel 4 _ _ _ _ _
      (ScalableWrapper.wheelEvent_zoom_to 4 freshWrapper _ (by decide) rfl 9 _ _ (by decide)
        roundToDouble_nine_tenths roundToDouble_nine_up (by norm_num))]
    rfl
  · rw [zoomedNineNotches.eventFilter_handled _ false (Or.inr rfl)]
    have hs : roundToDouble (1 / zoomedNineNotches.m_zoomRange) =
        4740631186705785 / 9007199254740992 := roundToDouble_inv_nine_up
    rw [hs]
    rfl

/-- C7: wheel scrolling without the zoom modifier. For every state and every wheel event
without the Control modifier, with `d` the vertical angle delta of the event: when the
orientation is vertical, `wheelEvent` is one `setValue` request on the wrapper's vertical
bar for `v - (d / 120) * s` (`v` the current value of that bar, `s` its single step,
`d / 120` the whole number of notches); the call returns (fuel at least 4), the accepted
flag is as it came, the horizontal bars and the zoom factor are unchanged, and the bar
ends on the clamped request or on that value clamped to the editor's range and back.
When the orientation is horizontal the same holds with the horizontal bar, its own value
and single step, and the vertical bars unchanged; the notch count is taken from the
vertical angle delta there too, and the horizontal angle delta is never read. -/
theorem wheel_scroll_without_modifier (fuel : Nat) (hfuel : 4 ≤ fuel) (st : ScalableWrapper)
    (e : QWheelEvent) (hc : e.modifiers &&& Qt.ControlModifier = 0) :
    (e.orientation = Qt.Orientation.Vertical →
      st.wheelEvent fuel e =
        (QAbstractSlider.setValue fuel st .wrapperVertical
          (st.verticalScrollBar.value
            - Int.tdiv e.angleDelta.y 120 * st.verticalScrollBar.singleStep)).map
          (fun s => (s, e.accepted)) ∧
      ∃ r, st.wheelEvent fuel e = some (r, e.accepted) ∧
        r.horizontalScrollBar = st.horizontalScrollBar ∧
        r.editorHorizontalScrollBar = st.editorHorizontalScrollBar ∧
        r.m_zoomRange = st.m_zoomRange ∧
        (r.verticalScrollBar.value = st.verticalScrollBar.bound
            (st.verticalScrollBar.value
              - Int.tdiv e.angleDelta.y 120 * st.verticalScrollBar.singleStep) ∨
          r.verticalScrollBar.value = st.verticalScrollBar.bound
            (st.editorVerticalScrollBar.bound (st.verticalScrollBar.bound
              (st.verticalScrollBar.value
                - Int.tdiv e.angleDelta.y 120 * st.verticalScrollBar.singleStep))))) ∧
    (e.orientation = Qt.Orientation.Horizontal →
      st.wheelEvent fuel e =
        (QAbstractSlider.setValue fuel st .wrapperHorizontal
          (st.horizontalScrollBar.value
            - Int.tdiv e.angleDelta.y 120 * st.horizontalScrollBar.singleStep)).map
          (fun s => (s, e.accepted)) ∧
      ∃ r, st.wheelEvent fuel e = some (r, e.accepted) ∧
        r.verticalScrollBar = st.verticalScrollBar ∧
        r.editorVerticalScrollBar = st.editorVerticalScrollBar ∧
        r.m_zoomRange = st.m_zoomRange ∧
        (r.horizontalScrollBar.value = st.horizontalScrollBar.bound
            (st.horizontalScrollBar.value
              - Int.tdiv e.angleDelta.y 120 * st.horizontalScrollBar.singleStep) ∨
          r.horizontalScrollBar.value = st.horizontalScrollBar.bound
            (st.editorHorizontalScrollBar.bound (st.horizontalScrollBar.bound
              (st.horizontalScrollBar.value
                - Int.tdiv e.angleDelta.y 120 * st.horizontalScrollBar.singleStep))))) ∧
    (∀ x : Int, st.wheelEvent fuel { e with angleDelta := ⟨x, e.angleDelta.y⟩ } =
      st.wheelEvent fuel e) := by
  have hc2 : ¬ e.modifiers &&& Qt.ControlModifier ≠ 0 := fun hne => hne hc
  refine ⟨?_, ?_, fun x => rfl⟩
  · intro ho
    have hw := st.wheelEvent_scroll_vertical fuel e hc2 ho
    refine ⟨hw, ?_⟩
    obtain ⟨vx, vy, h, hvx, -, -⟩ := QAbstractSlider.setValue_total fuel hfuel st
      .wrapperVertical (st.verticalScrollBar.value
        - Int.tdiv e.angleDelta.y 120 * st.verticalScrollBar.singleStep)
    exact ⟨(st.setValueOf .wrapperVertical vx).setValueOf .editorVertical vy,
      by rw [hw, h]; rfl, rfl, rfl, rfl, hvx⟩
  · intro ho
    have hw := st.wheelEvent_scroll_horizontal fuel e hc2 ho
    refine ⟨hw, ?_⟩
    obtain ⟨vx, vy, h, hvx, -, -⟩ := QAbstractSlider.setValue_total fuel hfuel st
      .wrapperHorizontal (st.horizontalScrollBar.value
        - Int.tdiv e.angleDelta.y 120 * st.horizontalScrollBar.singleStep)
    exact ⟨(st.setValueOf .wrapperHorizontal vx).setValueOf .editorHorizontal vy,
      by rw [hw, h]; rfl, rfl, rfl, rfl, hvx⟩

/-- Witness of C7: two notches down on the vertical wheel over the state `zoomedIn`. -/
theorem wheel_scroll_without_modifier_witness :
    4 ≤ 4 ∧
    (⟨0, Qt.Orientation.Vertical, ⟨0, -240⟩, false⟩ : QWheelEvent).modifiers
      &&& Qt.ControlModifier = 0 ∧
    zoomedIn.wheelEvent 4 ⟨0, Qt.Orientation.Vertical, ⟨0, -240⟩, false⟩ =
      (QAbstractSlider.setValue 4 zoomedIn .wrapperVertical
        (zoomedIn.verticalScrollBar.value
          - Int.tdiv (-240) 120 * zoomedIn.verticalScrollBar.singleStep)).map
        (fun s => (s, false)) ∧
    (zoomedIn.wheelEvent 4 ⟨0, Qt.Orientation.Vertical, ⟨0, -240⟩, false⟩).map
      (fun r => (r.1.verticalScrollBar.value, r.1.horizontalScrollBar.value)) = some (2, 0) :=
  ⟨le_refl 4, by decide,
    ((wheel_scroll_without_modifier 4 (le_refl 4) zoomedIn
      ⟨0, Qt.Orientation.Vertical, ⟨0, -240⟩, false⟩ (by decide)).1 rfl).1, rfl⟩

/-- C8, as amended: what a wheel event is taken for. A wheel event is a zoom gesture
exactly when the Control modifier is held and the orientation is vertical: then the zoom
factor becomes `max (1/2) (z + notches / 10)`, the division and the addition being those
of `double`, and the event is accepted. Every wheel event
without the Control modifier is one `setValue` request, for the current value minus
notches times single step, on the wrapper bar of the event's orientation; it returns
(fuel at least 4) and leaves the zoom factor unchanged. A wheel event with the Control
modifier held and horizontal orientation is neither: the whole state, zoom factor and
scrollbar values included, and the accepted flag are left as they were. In all cases
`notches` is the vertical angle delta divided by 120, rounded toward zero. -/
theorem wheel_zoom_or_scroll (fuel : Nat) (hfuel : 4 ≤ fuel) (st : ScalableWrapper)
    (e : QWheelEvent) :
    (e.modifiers &&& Qt.ControlModifier ≠ 0 → e.orientation = Qt.Orientation.Vertical →
      ∃ r, st.wheelEvent fuel e = some (r, true) ∧
        r.m_zoomRange =
          max (1 / 2) (roundToDouble (st.m_zoomRange
            + roundToDouble ((Int.tdiv e.angleDelta.y 120 : ℚ) / 10)))) ∧
    (e.modifiers &&& Qt.ControlModifier ≠ 0 → e.orientation = Qt.Orientation.Horizontal →
      st.wheelEvent fuel e = some (st, e.accepted)) ∧
    (e.modifiers &&& Qt.ControlModifier = 0 → e.orientation = Qt.Orientation.Vertical →
      st.wheelEvent fuel e =
        (QAbstractSlider.setValue fuel st .wrapperVertical
          (st.verticalScrollBar.value
            - Int.tdiv e.angleDelta.y 120 * st.verticalScrollBar.singleStep)).map
          (fun s => (s, e.accepted))) ∧
    (e.modifiers &&& Qt.ControlModifier = 0 → e.orientation = Qt.Orientation.Horizontal →
      st.wheelEvent fuel e =
        (QAbstractSlider.setValue fuel st .wrapperHorizontal
          (st.horizontalScrollBar.value
            - Int.tdiv e.angleDelta.y 120 * st.horizontalScrollBar.singleStep)).map
          (fun s => (s, e.accepted))) ∧
    (¬ (e.modifiers &&& Qt.ControlModifier ≠ 0 ∧ e.orientation = Qt.Orientation.Vertical) →
      ∃ r, st.wheelEvent fuel e = some (r, e.accepted) ∧ r.m_zoomRange = st.m_zoomRange) := by
  refine ⟨fun hc ho => ⟨_, st.wheelEvent_zoom fuel e hc ho, rfl⟩,
    fun hc ho => st.wheelEvent_control_horizontal fuel e hc ho,
    fun hc ho => st.wheelEvent_scroll_vertical fuel e (fun hne => hne hc) ho,
    fun hc ho => st.wheelEvent_scroll_horizontal fuel e (fun hne => hne hc) ho, ?_⟩
  intro hnot
  by_cases hc : e.modifiers &&& Qt.ControlModifier ≠ 0
  · cases ho : e.orientation with
    | Vertical => exact absurd ⟨hc, ho⟩ hnot
    | Horizontal => exact ⟨st, st.wheelEvent_control_horizontal fuel e hc ho, rfl⟩
  · cases ho : e.orientation with
    | Vertical =>
      obtain ⟨vx, vy, h, -⟩ := QAbstractSlider.setValue_total fuel hfuel st .wrapperVertical
        (st.verticalScrollBar.value
          - Int.tdiv e.angleDelta.y 120 * st.verticalScrollBar.singleStep)
      exact ⟨(st.setValueOf .wrapperVertical vx).setValueOf .editorVertical vy,
        by rw [st.wheelEvent_scroll_vertical fuel e hc ho, h]; rfl, rfl⟩
    | Horizontal =>
      obtain ⟨vx, vy, h, -⟩ := QAbstractSlider.setValue_total fuel hfuel st .wrapperHorizontal
        (st.horizontalScrollBar.value
          - Int.tdiv e.angleDelta.y 120 * st.horizontalScrollBar.singleStep)
      exact ⟨(st.setValueOf .wrapperHorizontal vx).setValueOf .editorHorizontal vy,
        by rw [st.wheelEvent_scroll_horizontal fuel e hc ho, h]; rfl, rfl⟩

/-- Witness of C8 as amended: Control held, horizontal orientation, one notch on both
axes, over the state `scrolledPastEnd`: nothing changes. -/
theorem wheel_zoom_or_scroll_witness :
    4 ≤ 4 ∧
    (⟨Qt.ControlModifier, Qt.Orientation.Horizontal, ⟨120, 120⟩, false⟩ :
      QWheelEvent).modifiers &&& Qt.ControlModifier ≠ 0 ∧
    scrolledPastEnd.wheelEvent 4
      ⟨Qt.ControlModifier, Qt.Orientation.Horizontal, ⟨120, 120⟩, false⟩ =
      some (scrolledPastEnd, false) :=
  ⟨le_refl 4, by decide,
    (wheel_zoom_or_scroll 4 (le_refl 4) scrolledPastEnd
      ⟨Qt.ControlModifier, Qt.Orientation.Horizontal, ⟨120, 120⟩, false⟩).2.1
      (by decide) rfl⟩

/-- Counterexample to C8 as stated: with the Control modifier held, horizontal orientation
and one notch on both axes, over the state `scrolledPastEnd` (horizontal bar at 7, single
step 1, range 0 to 200), the claimed value change would be a request for `7 - 1 * 1 = 6`,
which moves the bar to 6; `wheelEvent` leaves the bar at 7 and makes no request. -/
theorem wheel_control_horizontal_counterexample :
    (⟨Qt.ControlModifier, Qt.Orientation.Horizontal, ⟨120, 120⟩, false⟩ :
      QWheelEvent).modifiers &&& Qt.ControlModifier ≠ 0 ∧
    (scrolledPastEnd.wheelEvent 4
      ⟨Qt.ControlModifier, Qt.Orientation.Horizontal, ⟨120, 120⟩, false⟩).map
      (fun r => r.1.horizontalScrollBar.value) = some 7 ∧
    (QAbstractSlider.setValue 4 scrolledPastEnd .wrapperHorizontal
      (scrolledPastEnd.horizontalScrollBar.value
        - Int.tdiv 120 120 * scrolledPastEnd.horizontalScrollBar.singleStep)).map
      (fun s => s.horizontalScrollBar.value) = some 6 ∧
    scrolledPastEnd.wheelEvent 4
      ⟨Qt.ControlModifier, Qt.Orientation.Horizontal, ⟨120, 120⟩, false⟩ ≠
      (QAbstractSlider.setValue 4 scrolledPastEnd .wrapperHorizontal
        (scrolledPastEnd.horizontalScrollBar.value
          - Int.tdiv 120 120 * scrolledPastEnd.horizontalScrollBar.singleStep)).map
        (fun s => (s, false)) := by
  have h7 : (scrolledPastEnd.wheelEvent 4
      ⟨Qt.ControlModifier, Qt.Orientation.Horizontal, ⟨120, 120⟩, false⟩).map
      (fun r => r.1.horizontalScrollBar.value) = some 7 := rfl
  have h6 : (QAbstractSlider.setValue 4 scrolledPastEnd .wrapperHorizontal
      (scrolledPastEnd.horizontalScrollBar.value
        - Int.tdiv 120 120 * scrolledPastEnd.horizontalScrollBar.singleStep)).map
      (fun s => s.horizontalScrollBar.value) = some 6 := rfl
  refine ⟨by decide, h7, h6, ?_⟩
  intro heq
  have h := congrArg (Option.map (fun r : ScalableWrapper × Bool =>
    r.1.horizontalScrollBar.value)) heq
  rw [h7, Option.map_map] at h
  have h6b : (QAbstractSlider.setValue 4 scrolledPastEnd .wrapperHorizontal
      (scrolledPastEnd.horizontalScrollBar.value
        - Int.tdiv 120 120 * scrolledPastEnd.horizontalScrollBar.singleStep)).map
      ((fun r : ScalableWrapper × Bool => r.1.horizontalScrollBar.value) ∘
        (fun s => (s, false))) = some 6 := h6
  rw [h6b] at h
  exact absurd h (by decide)

/-- A render pass returns and ends with exactly the four connections. -/
theorem ScalableWrapper.paintEvent_connections (fuel : Nat) (hfuel : 4 ≤ fuel)
    (st : ScalableWrapper) :
    ∃ r, st.paintEvent fuel = some r ∧ r.connections = syncConnections := by
  obtain ⟨hv, vv, ehv, evv, h, -⟩ := st.paintEvent_total fuel hfuel
  exact ⟨_, h, rfl⟩

/-- C9: the scroll-synchronisation state machine. (1) After construction the connections
are the four bindings, each exactly once. (2) In every render pass (fuel at least 4) the
connections are removed after `updateTextEditSize`; the reset of both wrapper bars to 0
and the later restore each run on a state without any connection, and the editor's bars
are the same after each of these steps as before the reset. (3) After the pass, and after
any number of passes in a row, the connections are again exactly the four bindings, each
once. (4) Toggling the synchronisation off and on in a state with these connections gives
back the very same state, so every later `setValue` on any bar behaves as before. -/
theorem scroll_synchronization_state_machine (fuel : Nat) (hfuel : 4 ≤ fuel)
    (st : ScalableWrapper) :
    (∀ (wv wh ev eh : QScrollBar) (w h : Int) (size : Int × Int),
      (ScalableWrapper.construct wv wh ev eh w h size).connections = syncConnections) ∧
    (∀ l : Link, syncConnections.count l = 1) ∧
    (∃ s1 s2 s3 s4 s6 s7 r : ScalableWrapper,
      st.updateTextEditSize fuel = some s1 ∧
      s2 = s1.setupScrollingSynchronization false ∧
      s2.connections = [] ∧
      QAbstractSlider.setValue fuel s2 .wrapperVertical 0 = some s3 ∧
      s3.connections = [] ∧
      QAbstractSlider.setValue fuel s3 .wrapperHorizontal 0 = some s4 ∧
      s4.connections = [] ∧
      (QGraphicsView.paintEvent s4).connections = [] ∧
      QAbstractSlider.setValue fuel (QGraphicsView.paintEvent s4) .wrapperVertical
        s2.verticalScrollBar.value = some s6 ∧
      s6.connections = [] ∧
      QAbstractSlider.setValue fuel s6 .wrapperHorizontal s2.horizontalScrollBar.value =
        some s7 ∧
      r = s7.setupScrollingSynchronization true ∧
      st.paintEvent fuel = some r ∧
      (∀ s ∈ [s3, s4, s6, s7, r],
        s.editorVerticalScrollBar = s2.editorVerticalScrollBar ∧
        s.editorHorizontalScrollBar = s2.editorHorizontalScrollBar) ∧
      r.connections = syncConnections ∧
      ∀ l : Link, r.connections.count l = 1) ∧
    (∀ n : Nat, ∃ r, st.paintEvents fuel (n + 1) = some r ∧
      r.connections = syncConnections ∧ ∀ l : Link, r.connections.count l = 1) ∧
    (st.connections = syncConnections →
      (st.setupScrollingSynchronization false).setupScrollingSynchronization true = st ∧
      ∀ (x : Bar) (v : Int),
        QAbstractSlider.setValue fuel
          ((st.setupScrollingSynchronization false).setupScrollingSynchronization true) x v =
        QAbstractSlider.setValue fuel st x v) := by
  have hcount : ∀ l : Link, syncConnections.count l = 1 := by
    intro l; cases l <;> decide
  refine ⟨?_, hcount, ?_, ?_, ?_⟩
  · intro wv wh ev eh w h size
    simp [ScalableWrapper.construct, ScalableWrapper.setupScrollingSynchronization_true,
      ScalableWrapper.disconnectAll]
  · obtain ⟨hv, vv, ehv, evv, h1, -⟩ := st.updateTextEditSize_total fuel hfuel
    obtain ⟨s2, s3, s4, s6, s7, e2, e2b, c3, e3, c4, e4, c6, e6, c7, e7, hp⟩ :=
      ScalableWrapper.paintEvent_chain fuel (by omega) st _ h1
    have hr : (s7.setupScrollingSynchronization true).connections = syncConnections := by
      rw [ScalableWrapper.setupScrollingSynchronization_true, e7, e6, e4, e3, e2b]
      simp
    refine ⟨_, s2, s3, s4, s6, s7, _, h1, e2, ?_, c3, ?_, c4, ?_, ?_, c6, ?_, c7, rfl, hp, ?_,
      hr, ?_⟩
    · rw [e2b]
    · rw [e3, e2b]; rfl
    · rw [e4, e3, e2b]; rfl
    · rw [e4, e3, e2b]; rfl
    · rw [e6, e4, e3, e2b]; rfl
    · intro s hs
      simp only [List.mem_cons, List.mem_singleton, List.not_mem_nil, or_false] at hs
      rcases hs with rfl | rfl | rfl | rfl | rfl
      · rw [e3]; exact ⟨rfl, rfl⟩
      · rw [e4, e3]; exact ⟨rfl, rfl⟩
      · rw [e6, e4, e3]; exact ⟨rfl, rfl⟩
      · rw [e7, e6, e4, e3]; exact ⟨rfl, rfl⟩
      · rw [ScalableWrapper.setupScrollingSynchronization_true, e7, e6, e4, e3]
        exact ⟨rfl, rfl⟩
    · rw [hr]; exact hcount
  · intro n
    induction n generalizing st with
    | zero =>
      obtain ⟨r, h, hc⟩ := st.paintEvent_connections fuel hfuel
      exact ⟨r, by simp [ScalableWrapper.paintEvents, h], hc, by rw [hc]; exact hcount⟩
    | succ k ih =>
      obtain ⟨s, h, -⟩ := st.paintEvent_connections fuel hfuel
      obtain ⟨r, hr, hc⟩ := ih s
      exact ⟨r, by rw [ScalableWrapper.paintEvents, h]; exact hr, hc⟩
  · intro hst
    have htoggle :
        (st.setupScrollingSynchronization false).setupScrollingSynchronization true = st := by
      rw [ScalableWrapper.setupScrollingSynchronization_false,
        ScalableWrapper.setupScrollingSynchronization_true]
      simp only [List.nil_append]
      rw [← hst]
    exact ⟨htoggle, fun x v => by rw [htoggle]⟩

/-- Witness of C9: the state `zoomedIn`, which carries the four connections. -/
theorem scroll_synchronization_state_machine_witness :
    4 ≤ 4 ∧
    (∃ r, zoomedIn.paintEvents 4 (2 + 1) = some r ∧
      r.connections = syncConnections ∧ ∀ l : Link, r.connections.count l = 1) ∧
    zoomedIn.connections = syncConnections ∧
    (zoomedIn.setupScrollingSynchronization false).setupScrollingSynchronization true =
      zoomedIn :=
  ⟨le_refl 4,
    (scroll_synchronization_state_machine 4 (le_refl 4) zoomedIn).2.2.2.1 2,
    rfl,
    ((scroll_synchronization_state_machine 4 (le_refl 4) zoomedIn).2.2.2.2 rfl).1⟩

/-! ## The notch count -/

/-- The quotient `Int.tdiv d 120` of a delta that is not negative is the floor quotient. -/
theorem notches_of_nonneg (d : Int) (h : 0 ≤ d) : Int.tdiv d 120 = d / 120 :=
  Int.tdiv_eq_ediv h (by norm_num)

/-- The quotient `Int.tdiv d 120` of a delta that is not positive is minus the floor
quotient of the opposite delta. -/
theorem notches_of_nonpos (d : Int) (h : d ≤ 0) : Int.tdiv d 120 = -((-d) / 120) := by
  have hd : d = -(-d) := by omega
  rw [hd, Int.neg_tdiv, Int.tdiv_eq_ediv (by omega) (by norm_num)]
  simp

/-- Less than a whole notch in either direction counts as no notch. -/
theorem notches_of_small (d : Int) (h1 : -120 < d) (h2 : d < 120) : Int.tdiv d 120 = 0 := by
  rcases le_total 0 d with h | h
  · rw [notches_of_nonneg d h]; omega
  · rw [notches_of_nonpos d h]; omega

/-- C10, as amended: notch counting truncates toward zero. The number of notches
`wheelEvent` uses is `k`, the quotient of the vertical angle delta `d` by 120 rounded
toward zero: `120 * k` lies between 0 and `d` and differs from `d` by less than 120. Hence
for `-120 < d < 120`: with the Control modifier held and a zoom factor that is a double of
at least 1/2 (as in every reachable state) the zoom factor is left unchanged, and without
the modifier (fuel at least 1, the targeted wrapper bar well formed) the whole state is
left unchanged. For every `d`, with the modifier held and vertical orientation the zoom
factor becomes `max (1/2) (z + k / 10)` with the division and the addition of `double`
(each rounded to the nearest double): the step depends on `d` through `k` only, so
`d = 180` and `d = -180` act exactly as `d = 120` and `d = -120`, one notch and not one
and a half; the step is the double nearest to `k / 10` and the sum is rounded, so the
change need not be an exact multiple of 1/10. -/
theorem notch_count_truncates (fuel : Nat) (st : ScalableWrapper) (e : QWheelEvent) :
    ((0 ≤ e.angleDelta.y → 0 ≤ 120 * Int.tdiv e.angleDelta.y 120 ∧
        120 * Int.tdiv e.angleDelta.y 120 ≤ e.angleDelta.y ∧
        e.angleDelta.y < 120 * Int.tdiv e.angleDelta.y 120 + 120) ∧
      (e.angleDelta.y ≤ 0 → 120 * Int.tdiv e.angleDelta.y 120 ≤ 0 ∧
        e.angleDelta.y ≤ 120 * Int.tdiv e.angleDelta.y 120 ∧
        120 * Int.tdiv e.angleDelta.y 120 - 120 < e.angleDelta.y)) ∧
    (-120 < e.angleDelta.y → e.angleDelta.y < 120 →
      e.modifiers &&& Qt.ControlModifier ≠ 0 → 1 / 2 ≤ st.m_zoomRange →
      IsDouble st.m_zoomRange →
      ∃ r, st.wheelEvent fuel e = some r ∧ r.1.m_zoomRange = st.m_zoomRange) ∧
    (-120 < e.angleDelta.y → e.angleDelta.y < 120 →
      e.modifiers &&& Qt.ControlModifier = 0 → 1 ≤ fuel →
      (e.orientation = Qt.Orientation.Vertical → st.verticalScrollBar.WellFormed →
        st.wheelEvent fuel e = some (st, e.accepted)) ∧
      (e.orientation = Qt.Orientation.Horizontal → st.horizontalScrollBar.WellFormed →
        st.wheelEvent fuel e = some (st, e.accepted))) ∧
    (e.modifiers &&& Qt.ControlModifier ≠ 0 → e.orientation = Qt.Orientation.Vertical →
      ∃ r, st.wheelEvent fuel e = some (r, true) ∧
        r.m_zoomRange = max (1 / 2) (roundToDouble (st.m_zoomRange
          + roundToDouble ((Int.tdiv e.angleDelta.y 120 : ℚ) / 10))) ∧
        (e.angleDelta.y = 180 →
          r.m_zoomRange = max (1 / 2) (roundToDouble (st.m_zoomRange
            + roundToDouble (((1 : Int) : ℚ) / 10))) ∧
          st.wheelEvent fuel e =
            st.wheelEvent fuel { e with angleDelta := ⟨e.angleDelta.x, 120⟩ }) ∧
        (e.angleDelta.y = -180 →
          r.m_zoomRange = max (1 / 2) (roundToDouble (st.m_zoomRange
            + roundToDouble (((-1 : Int) : ℚ) / 10))) ∧
          st.wheelEvent fuel e =
            st.wheelEvent fuel { e with angleDelta := ⟨e.angleDelta.x, -120⟩ })) := by
  refine ⟨⟨?_, ?_⟩, ?_, ?_, ?_⟩
  · intro h
    rw [notches_of_nonneg _ h]
    omega
  · intro h
    rw [notches_of_nonpos _ h]
    omega
  · intro h1 h2 hc hz hd
    cases ho : e.orientation with
    | Vertical =>
      refine ⟨_, st.wheelEvent_zoom fuel e hc ho, ?_⟩
      rw [notches_of_small _ h1 h2]
      simp only [Int.cast_zero, zero_div, roundToDouble_zero, add_zero]
      unfold IsDouble at hd
      rw [hd]
      exact max_eq_right hz
    | Horizontal => exact ⟨_, st.wheelEvent_control_horizontal fuel e hc ho, rfl⟩
  · intro h1 h2 hc hfuel
    obtain ⟨k, rfl⟩ := Nat.exists_eq_add_of_le hfuel
    rw [Nat.add_comm]
    constructor
    · intro ho hwf
      rw [st.wheelEvent_scroll_vertical _ e (fun hne => hne hc) ho,
        notches_of_small _ h1 h2, QAbstractSlider.setValue_noop]
      · rfl
      · simp only [zero_mul, sub_zero, ScalableWrapper.bar]
        exact (QScrollBar.bound_of_wellFormed hwf).symm
    · intro ho hwf
      rw [st.wheelEvent_scroll_horizontal _ e (fun hne => hne hc) ho,
        notches_of_small _ h1 h2, QAbstractSlider.setValue_noop]
      · rfl
      · simp only [zero_mul, sub_zero, ScalableWrapper.bar]
        exact (QScrollBar.bound_of_wellFormed hwf).symm
  · intro hc ho
    refine ⟨_, st.wheelEvent_zoom fuel e hc ho, rfl, ?_, ?_⟩
    · intro hd
      have hk : Int.tdiv e.angleDelta.y 120 = 1 := by rw [hd]; decide
      have hk2 : Int.tdiv 120 120 = 1 := by decide
      refine ⟨by simp only [hk], ?_⟩
      rw [st.wheelEvent_zoom fuel e hc ho,
        st.wheelEvent_zoom fuel { e with angleDelta := ⟨e.angleDelta.x, 120⟩ } hc ho]
      simp only [hk, hk2]
    · intro hd
      have hk : Int.tdiv e.angleDelta.y 120 = -1 := by rw [hd]; decide
      have hk2 : Int.tdiv (-120) 120 = -1 := by decide
      refine ⟨by simp only [hk], ?_⟩
      rw [st.wheelEvent_zoom fuel e hc ho,
        st.wheelEvent_zoom fuel { e with angleDelta := ⟨e.angleDelta.x, -120⟩ } hc ho]
      simp only [hk, hk2]

/-- Witness of C10 as amended: a delta of 119 without the modifier over the state
`zoomedIn` (no change), a delta of 119 with the modifier (no change of the zoom, which is
the double `1.2`), and a delta of -180 with the modifier (one notch down, to the double
`1.0999999999999999`). -/
theorem notch_count_truncates_witness :
    (-120 < (119 : Int) ∧ (119 : Int) < 120 ∧
      (⟨0, Qt.Orientation.Vertical, ⟨0, 119⟩, false⟩ : QWheelEvent).modifiers
        &&& Qt.ControlModifier = 0 ∧ 1 ≤ 4 ∧
      zoomedIn.verticalScrollBar.WellFormed ∧
      zoomedIn.wheelEvent 4 ⟨0, Qt.Orientation.Vertical, ⟨0, 119⟩, false⟩ =
        some (zoomedIn, false)) ∧
    ((1 : ℚ) / 2 ≤ zoomedIn.m_zoomRange ∧ IsDouble zoomedIn.m_zoomRange ∧
      ∃ r, zoomedIn.wheelEvent 4
          ⟨Qt.ControlModifier, Qt.Orientation.Vertical, ⟨0, 119⟩, false⟩ = some r ∧
        r.1.m_zoomRange = zoomedIn.m_zoomRange) ∧
    ((⟨Qt.ControlModifier, Qt.Orientation.Vertical, ⟨0, -180⟩, false⟩ :
        QWheelEvent).modifiers &&& Qt.ControlModifier ≠ 0 ∧
      ∃ r, zoomedIn.wheelEvent 4
          ⟨Qt.ControlModifier, Qt.Orientation.Vertical, ⟨0, -180⟩, false⟩ = some (r, true) ∧
        r.m_zoomRange = 4953959590107545 / 4503599627370496) :=
  have hz : (1 : ℚ) / 2 ≤ zoomedIn.m_zoomRange := by norm_num [zoomedIn]
  have hd : IsDouble zoomedIn.m_zoomRange := by
    have h := roundToDouble_idem (1 + 3602879701896397 / 18014398509481984)
    rw [roundToDouble_two_up] at h
    exact h
  ⟨⟨by decide, by decide, by decide, by decide, by decide,
      ((notch_count_truncates 4 zoomedIn
        ⟨0, Qt.Orientation.Vertical, ⟨0, 119⟩, false⟩).2.2.1
        (by decide) (by decide) (by decide) (by decide)).1 rfl (by decide)⟩,
    ⟨hz, hd, (notch_count_truncates 4 zoomedIn
        ⟨Qt.ControlModifier, Qt.Orientation.Vertical, ⟨0, 119⟩, false⟩).2.1
        (by decide) (by decide) (by decide) hz hd⟩,
    by decide,
    (fun ⟨r, h, _, _, h180⟩ => ⟨r, h, (h180 rfl).1.trans (by
        have hs : roundToDouble (zoomedIn.m_zoomRange
            + -3602879701896397 / 36028797018963968) = 4953959590107545 / 4503599627370496 :=
          roundToDouble_two_up_one_down
        rw [roundToDouble_minus_one_tenths, hs]
        exact max_eq_right (by norm_num))⟩)
      ((notch_count_truncates 4 zoomedIn
        ⟨Qt.ControlModifier, Qt.Orientation.Vertical, ⟨0, -180⟩, false⟩).2.2.2
        (by decide) rfl)⟩

/-- Counterexample to C10 as stated: in the state `scrolledPastEnd`, whose zoom factor is
1, a delta of 180 with the Control modifier held stores the double `1.1`; no clamping
takes place, and the change `1.1 - 1`, times ten, lies strictly between 1 and 2, so the
change is not a whole multiple of 1/10. -/
theorem notch_step_counterexample :
    scrolledPastEnd.m_zoomRange = 1 ∧
    (scrolledPastEnd.wheelEvent 4
      ⟨Qt.ControlModifier, Qt.Orientation.Vertical, ⟨0, 180⟩, false⟩).map
      (fun r => r.1.m_zoomRange) = some (2476979795053773 / 2251799813685248) ∧
    (1 : ℚ) / 2 < 2476979795053773 / 2251799813685248 ∧
    (1 : ℚ) < (2476979795053773 / 2251799813685248 - 1) * 10 ∧
    ((2476979795053773 / 2251799813685248 - 1) * 10 : ℚ) < 2 ∧
    ¬ ∃ k : Int, (2476979795053773 / 2251799813685248 - 1 : ℚ) = (k : ℚ) * (1 / 10) := by
  refine ⟨rfl, ?_, by norm_num, by norm_num, by norm_num, ?_⟩
  · rw [ScalableWrapper.wheelEvent_zoom_to 4 scrolledPastEnd _ (by decide) rfl 1 _ _
      (by decide) roundToDouble_one_tenths roundToDouble_step_up_1 (by norm_num)]
    rfl
  · rintro ⟨k, hk⟩
    have h1 : (1 : ℚ) < (k : ℚ) := by
      have : (1 : ℚ) < (2476979795053773 / 2251799813685248 - 1) * 10 := by norm_num
      rw [hk] at this
      linarith
    have h2 : (k : ℚ) < 2 := by
      have : ((2476979795053773 / 2251799813685248 - 1) * 10 : ℚ) < 2 := by norm_num
      rw [hk] at this
      linarith
    have h1' : (1 : Int) < k := by exact_mod_cast h1
    have h2' : k < (2 : Int) := by exact_mod_cast h2
    omega
